import Mathlib

/-! Shallow embedding of the conversation/session core of the lcc repository
(src/chat/conversation.py together with the record types it stores from
src/chat/lm_studio.py), plus theorems settling the frozen claims about the
conversation data model, the manager operations and the persistence layer. -/

namespace LCC

/-- JSON-style value as handled by the Python json module, also covering the
Python None value (null). Separate constructors keep JSON integers apart from
JSON floats; the float payload is modelled as a rational number, which is exact
for every numeral the repository stores and reloads (it never computes with
these numbers, they are pass-through). -/
inductive Json where
  | null : Json
  | bool (b : Bool) : Json
  | int (n : Int) : Json
  | num (q : Rat) : Json
  | str (s : String) : Json
  | arr (elems : List Json) : Json
  | obj (fields : List (String × Json)) : Json
  deriving Repr

mutual

/-- Structural decidable equality for Json, written by hand because the
automatic derivation does not cover nested inductives. -/
def Json.decEq : (a b : Json) → Decidable (a = b)
  | .null, .null => .isTrue rfl
  | .bool a, .bool b =>
    if h : a = b then .isTrue (by rw [h]) else .isFalse (fun e => h (by injection e))
  | .int a, .int b =>
    if h : a = b then .isTrue (by rw [h]) else .isFalse (fun e => h (by injection e))
  | .num a, .num b =>
    if h : a = b then .isTrue (by rw [h]) else .isFalse (fun e => h (by injection e))
  | .str a, .str b =>
    if h : a = b then .isTrue (by rw [h]) else .isFalse (fun e => h (by injection e))
  | .arr xs, .arr ys =>
    match Json.decEqList xs ys with
    | .isTrue h => .isTrue (by rw [h])
    | .isFalse h => .isFalse (fun e => h (by injection e))
  | .obj xs, .obj ys =>
    match Json.decEqFields xs ys with
    | .isTrue h => .isTrue (by rw [h])
    | .isFalse h => .isFalse (fun e => h (by injection e))
  | .null, .bool _ => .isFalse (fun h => Json.noConfusion h)
  | .null, .int _ => .isFalse (fun h => Json.noConfusion h)
  | .null, .num _ => .isFalse (fun h => Json.noConfusion h)
  | .null, .str _ => .isFalse (fun h => Json.noConfusion h)
  | .null, .arr _ => .isFalse (fun h => Json.noConfusion h)
  | .null, .obj _ => .isFalse (fun h => Json.noConfusion h)
  | .bool _, .null => .isFalse (fun h => Json.noConfusion h)
  | .bool _, .int _ => .isFalse (fun h => Json.noConfusion h)
  | .bool _, .num _ => .isFalse (fun h => Json.noConfusion h)
  | .bool _, .str _ => .isFalse (fun h => Json.noConfusion h)
  | .bool _, .arr _ => .isFalse (fun h => Json.noConfusion h)
  | .bool _, .obj _ => .isFalse (fun h => Json.noConfusion h)
  | .int _, .null => .isFalse (fun h => Json.noConfusion h)
  | .int _, .bool _ => .isFalse (fun h => Json.noConfusion h)
  | .int _, .num _ => .isFalse (fun h => Json.noConfusion h)
  | .int _, .str _ => .isFalse (fun h => Json.noConfusion h)
  | .int _, .arr _ => .isFalse (fun h => Json.noConfusion h)
  | .int _, .obj _ => .isFalse (fun h => Json.noConfusion h)
  | .num _, .null => .isFalse (fun h => Json.noConfusion h)
  | .num _, .bool _ => .isFalse (fun h => Json.noConfusion h)
  | .num _, .int _ => .isFalse (fun h => Json.noConfusion h)
  | .num _, .str _ => .isFalse (fun h => Json.noConfusion h)
  | .num _, .arr _ => .isFalse (fun h => Json.noConfusion h)
  | .num _, .obj _ => .isFalse (fun h => Json.noConfusion h)
  | .str _, .null => .isFalse (fun h => Json.noConfusion h)
  | .str _, .bool _ => .isFalse (fun h => Json.noConfusion h)
  | .str _, .int _ => .isFalse (fun h => Json.noConfusion h)
  | .str _, .num _ => .isFalse (fun h => Json.noConfusion h)
  | .str _, .arr _ => .isFalse (fun h => Json.noConfusion h)
  | .str _, .obj _ => .isFalse (fun h => Json.noConfusion h)
  | .arr _, .null => .isFalse (fun h => Json.noConfusion h)
  | .arr _, .bool _ => .isFalse (fun h => Json.noConfusion h)
  | .arr _, .int _ => .isFalse (fun h => Json.noConfusion h)
  | .arr _, .num _ => .isFalse (fun h => Json.noConfusion h)
  | .arr _, .str _ => .isFalse (fun h => Json.noConfusion h)
  | .arr _, .obj _ => .isFalse (fun h => Json.noConfusion h)
  | .obj _, .null => .isFalse (fun h => Json.noConfusion h)
  | .obj _, .bool _ => .isFalse (fun h => Json.noConfusion h)
  | .obj _, .int _ => .isFalse (fun h => Json.noConfusion h)
  | .obj _, .num _ => .isFalse (fun h => Json.noConfusion h)
  | .obj _, .str _ => .isFalse (fun h => Json.noConfusion h)
  | .obj _, .arr _ => .isFalse (fun h => Json.noConfusion h)

/-- Decidable equality for JSON arrays. -/
def Json.decEqList : (xs ys : List Json) → Decidable (xs = ys)
  | [], [] => .isTrue rfl
  | [], _ :: _ => .isFalse (fun h => List.noConfusion h)
  | _ :: _, [] => .isFalse (fun h => List.noConfusion h)
  | x :: xs, y :: ys =>
    match Json.decEq x y, Json.decEqList xs ys with
    | .isTrue h1, .isTrue h2 => .isTrue (by rw [h1, h2])
    | .isFalse h1, _ => .isFalse (fun e => h1 (by injection e))
    | _, .isFalse h2 => .isFalse (fun e => h2 (by injection e))

/-- Decidable equality for JSON object field lists. -/
def Json.decEqFields : (xs ys : List (String × Json)) → Decidable (xs = ys)
  | [], [] => .isTrue rfl
  | [], _ :: _ => .isFalse (fun h => List.noConfusion h)
  | _ :: _, [] => .isFalse (fun h => List.noConfusion h)
  | (k, v) :: xs, (l, w) :: ys =>
    if hk : k = l then
      match Json.decEq v w, Json.decEqFields xs ys with
      | .isTrue h1, .isTrue h2 => .isTrue (by rw [hk, h1, h2])
      | .isFalse h1, _ =>
        .isFalse (fun e => by injection e with e1 e2; exact h1 (congrArg Prod.snd e1))
      | _, .isFalse h2 => .isFalse (fun e => by injection e with e1 e2; exact h2 e2)
    else .isFalse (fun e => by injection e with e1 e2; exact hk (congrArg Prod.fst e1))

end

instance : DecidableEq Json := Json.decEq

/-- Key lookup in a JSON object, first binding wins. Documents written by this
repository never carry duplicate keys. -/
def Json.lookup (fields : List (String × Json)) (key : String) : Option Json :=
  match fields with
  | [] => Option.none
  | (k, v) :: rest => if k = key then some v else Json.lookup rest key

/-- Python truth value of a JSON-style value: None, False, zero, the empty
string, the empty array and the empty object are falsy. -/
def Json.truthy : Json → Bool
  | .null => false
  | .bool b => b
  | .int n => !(n == 0)
  | .num q => !(q == 0)
  | .str s => !(s == "")
  | .arr xs => !xs.isEmpty
  | .obj kvs => !kvs.isEmpty

/-- Python datetime value. The code under verification only ever creates aware
UTC datetimes via datetime.now with timezone.utc; a missing offset models a
naive datetime as produced by parsing a string without an offset suffix. -/
structure Datetime where
  year : Nat
  month : Nat
  day : Nat
  hour : Nat
  minute : Nat
  second : Nat
  microsecond : Nat
  utcOffsetMinutes : Option Int
  deriving DecidableEq, Repr

/-- Zero padded fixed width decimal digits of n, most significant first. Every
datetime field fits its printed width (the Python datetime type enforces a
year of at most 9999 and a microsecond below one million), so the rendering is
modelled at fixed width. -/
def padDigits : Nat → Nat → List Char
  | 0, _ => []
  | w + 1, n => Nat.digitChar (n / 10 ^ w) :: padDigits w (n % 10 ^ w)

/-- Decimal rendering of n, left padded with zeros to the given width. -/
def padZeros (width n : Nat) : String :=
  String.mk (padDigits width n)

/-- Offset suffix of datetime.isoformat: empty for a naive datetime, otherwise
a sign followed by zero padded hours and minutes. -/
def offsetSuffix : Option Int → String
  | Option.none => ""
  | some o =>
    (if o < 0 then "-" else "+") ++ padZeros 2 (o.natAbs / 60) ++ ":" ++ padZeros 2 (o.natAbs % 60)

/-- Models datetime.isoformat: date and time separated by T, fractional seconds
printed as six digits and omitted entirely when the microsecond field is zero,
then the offset suffix. Modelled from the Python stdlib behaviour. -/
def Datetime.isoformat (d : Datetime) : String :=
  padZeros 4 d.year ++ "-" ++ padZeros 2 d.month ++ "-" ++ padZeros 2 d.day ++ "T" ++
    padZeros 2 d.hour ++ ":" ++ padZeros 2 d.minute ++ ":" ++ padZeros 2 d.second ++
    (if d.microsecond = 0 then "" else "." ++ padZeros 6 d.microsecond) ++
    offsetSuffix d.utcOffsetMinutes

/-- Models strftime with the format string used for default titles, namely
%Y-%m-%d %H:%M. -/
def Datetime.strftimeDateHM (d : Datetime) : String :=
  padZeros 4 d.year ++ "-" ++ padZeros 2 d.month ++ "-" ++ padZeros 2 d.day ++ " " ++
    padZeros 2 d.hour ++ ":" ++ padZeros 2 d.minute

/-- Numeric value of a decimal digit character, none for anything else. -/
def digitVal (c : Char) : Option Nat :=
  if c.isDigit then some (c.toNat - 48) else Option.none

/-- Reads exactly k decimal digits, accumulating their value. -/
def readFixedDigits : Nat → Nat → List Char → Option (Nat × List Char)
  | 0, acc, cs => some (acc, cs)
  | _ + 1, _, [] => Option.none
  | k + 1, acc, c :: cs =>
    match digitVal c with
    | some d => readFixedDigits k (acc * 10 + d) cs
    | Option.none => Option.none

/-- Consumes one expected character. -/
def expectChar (ch : Char) : List Char → Option (List Char)
  | c :: cs => if c = ch then some cs else Option.none
  | [] => Option.none

/-- Splits off the leading run of decimal digits. -/
def takeDigits : List Char → List Char × List Char
  | [] => ([], [])
  | c :: cs =>
    if c.isDigit then
      let (ds, rest) := takeDigits cs
      (c :: ds, rest)
    else ([], c :: cs)

/-- Value of a digit string read left to right. -/
def digitsToNat (ds : List Char) : Nat :=
  ds.foldl (fun acc c => acc * 10 + (c.toNat - 48)) 0

/-- Parses the date part of an ISO string, four digit year, dash, two digit
month, dash, two digit day, with the basic range checks the stdlib performs. -/
def parseDatePart (cs : List Char) : Option (Nat × Nat × Nat × List Char) := do
  let (y, cs) ← readFixedDigits 4 0 cs
  let cs ← expectChar '-' cs
  let (mo, cs) ← readFixedDigits 2 0 cs
  let cs ← expectChar '-' cs
  let (da, cs) ← readFixedDigits 2 0 cs
  if mo < 1 ∨ 12 < mo ∨ da < 1 ∨ 31 < da then Option.none
  else some (y, mo, da, cs)

/-- Parses the time part, two digit fields separated by colons, with range
checks. -/
def parseTimePart (cs : List Char) : Option (Nat × Nat × Nat × List Char) := do
  let (h, cs) ← readFixedDigits 2 0 cs
  let cs ← expectChar ':' cs
  let (mi, cs) ← readFixedDigits 2 0 cs
  let cs ← expectChar ':' cs
  let (se, cs) ← readFixedDigits 2 0 cs
  if 23 < h ∨ 59 < mi ∨ 59 < se then Option.none
  else some (h, mi, se, cs)

/-- Parses an optional fractional-seconds suffix of one to six digits after a
dot, scaling the result to microseconds. -/
def parseFracPart (cs : List Char) : Option (Nat × List Char) :=
  match cs with
  | [] => some (0, [])
  | c :: cs2 =>
    if c = '.' then
      let (ds, rest) := takeDigits cs2
      if ds.length = 0 ∨ 6 < ds.length then Option.none
      else some (digitsToNat ds * 10 ^ (6 - ds.length), rest)
    else some (0, c :: cs2)

/-- Parses the remaining offset suffix: empty for a naive result, the letter Z
for UTC, or a sign with zero padded hours and minutes. -/
def parseOffsetPart (cs : List Char) : Option (Option Int) :=
  match cs with
  | [] => some Option.none
  | c :: cs3 =>
    if c = 'Z' ∧ cs3 = [] then some (some 0)
    else if c = '+' ∨ c = '-' then do
      let (oh, cs3) ← readFixedDigits 2 0 cs3
      let cs3 ← expectChar ':' cs3
      let (om, cs3) ← readFixedDigits 2 0 cs3
      if cs3 ≠ [] ∨ 23 < oh ∨ 59 < om then Option.none
      else
        let mins : Int := (oh : Int) * 60 + (om : Int)
        some (some (if c = '-' then -mins else mins))
    else Option.none

/-- Models datetime.fromisoformat on the strings this code base can meet: the
output shapes of Datetime.isoformat (a date, an optional time behind a single
separator character with optional fractional seconds of up to six digits, an
optional offset suffix), with the basic range checks the stdlib performs.
Returns none where the Python function raises ValueError. Modelled from the
Python stdlib; the stdlib also accepts a few further ISO 8601 shapes that no
code path of this repository ever produces. -/
def Datetime.fromisoformat (s : String) : Option Datetime := do
  let (y, mo, da, cs) ← parseDatePart s.data
  match cs with
  | [] => some ⟨y, mo, da, 0, 0, 0, 0, Option.none⟩
  | _sep :: cs => do
    let (h, mi, se, cs) ← parseTimePart cs
    let (us, cs) ← parseFracPart cs
    let off ← parseOffsetPart cs
    some ⟨y, mo, da, h, mi, se, us, off⟩

/-- Chat message record from lm_studio.py: a role tag and text content. -/
structure ChatMessage where
  role : String
  content : String
  deriving DecidableEq, Repr

/-- Token usage record from lm_studio.py. -/
structure UsageStats where
  prompt_tokens : Int
  completion_tokens : Int
  total_tokens : Int
  deriving DecidableEq, Repr

/-- Performance record from lm_studio.py. The three Python float fields are
modelled as rationals; the repository only stores and reloads them. -/
structure PerformanceStats where
  tokens_per_second : Rat
  time_to_first_token : Rat
  generation_time : Rat
  stop_reason : String
  deriving DecidableEq, Repr

/-- Runtime record from lm_studio.py. -/
structure RuntimeInfo where
  name : String
  version : String
  supported_formats : List String
  deriving DecidableEq, Repr

/-- Chat completion response record from lm_studio.py. The model_info field is
a parsed JSON object passed through from the server response. -/
structure ChatResponse where
  message : ChatMessage
  usage : UsageStats
  stats : PerformanceStats
  model_info : Json
  runtime : RuntimeInfo
  id : String
  created : Int
  finish_reason : String
  deriving DecidableEq, Repr

/-- Python value held in the user_message slot of a turn: a typed ChatMessage
as built by the manager, or an untyped JSON value as left behind by
ConversationTurn.from_dict, which does not rebuild the nested dataclass. The
two are never equal, matching Python equality between a dataclass instance and
a plain dict. -/
inductive PyMsg where
  | typed (m : ChatMessage) : PyMsg
  | raw (j : Json) : PyMsg
  deriving DecidableEq, Repr

/-- Python value held in the assistant_response slot of a turn, same situation
as PyMsg. -/
inductive PyResp where
  | typed (r : ChatResponse) : PyResp
  | raw (j : Json) : PyResp
  deriving DecidableEq, Repr

/-- Python truth value of an optional response slot: None is falsy, a typed
response object is always truthy, an untyped JSON value follows JSON
truthiness. -/
def respTruthy : Option PyResp → Bool
  | Option.none => false
  | some (PyResp.typed _) => true
  | some (PyResp.raw j) => j.truthy

/-- ConversationTurn dataclass: a user message, an optional assistant
response, an id, a creation timestamp and a metadata dict. -/
structure ConversationTurn where
  id : String
  timestamp : Datetime
  user_message : PyMsg
  assistant_response : Option PyResp
  metadata : Json
  deriving DecidableEq, Repr

/-- Conversation dataclass: identity, titles, timestamps, the ordered turn
list, an optional system prompt and a metadata dict. The id and title are
restricted to strings, the only shape this repository ever writes. -/
structure Conversation where
  id : String
  title : String
  created_at : Datetime
  updated_at : Datetime
  turns : List ConversationTurn
  system_prompt : Option String
  metadata : Json
  deriving DecidableEq, Repr

/-- Models dataclasses.asdict on a ChatMessage. -/
def ChatMessage.asdict (m : ChatMessage) : Json :=
  Json.obj [("role", Json.str m.role), ("content", Json.str m.content)]

/-- Models dataclasses.asdict on a UsageStats. -/
def UsageStats.asdict (u : UsageStats) : Json :=
  Json.obj [("prompt_tokens", Json.int u.prompt_tokens),
    ("completion_tokens", Json.int u.completion_tokens),
    ("total_tokens", Json.int u.total_tokens)]

/-- Models dataclasses.asdict on a PerformanceStats. -/
def PerformanceStats.asdict (p : PerformanceStats) : Json :=
  Json.obj [("tokens_per_second", Json.num p.tokens_per_second),
    ("time_to_first_token", Json.num p.time_to_first_token),
    ("generation_time", Json.num p.generation_time),
    ("stop_reason", Json.str p.stop_reason)]

/-- Models dataclasses.asdict on a RuntimeInfo. -/
def RuntimeInfo.asdict (r : RuntimeInfo) : Json :=
  Json.obj [("name", Json.str r.name), ("version", Json.str r.version),
    ("supported_formats", Json.arr (r.supported_formats.map Json.str))]

/-- Models dataclasses.asdict on a ChatResponse, fields in declaration
order. -/
def ChatResponse.asdict (r : ChatResponse) : Json :=
  Json.obj [("message", r.message.asdict), ("usage", r.usage.asdict),
    ("stats", r.stats.asdict), ("model_info", r.model_info),
    ("runtime", r.runtime.asdict), ("id", Json.str r.id),
    ("created", Json.int r.created), ("finish_reason", Json.str r.finish_reason)]

/-- Models dataclasses.asdict on a user_message slot: a typed message becomes
its dict, an untyped JSON value is passed through unchanged. -/
def PyMsg.asdict : PyMsg → Json
  | PyMsg.typed m => m.asdict
  | PyMsg.raw j => j

/-- Models dataclasses.asdict on a response value. -/
def PyResp.asdict : PyResp → Json
  | PyResp.typed r => r.asdict
  | PyResp.raw j => j

/-- Models dataclasses.asdict on an optional response slot, None becoming
JSON null. -/
def optRespAsdict : Option PyResp → Json
  | Option.none => Json.null
  | some r => r.asdict

/-- Models ConversationTurn.to_dict: asdict of the dataclass with the
timestamp overwritten by its isoformat string, keys in dataclass field
order. -/
def ConversationTurn.to_dict (t : ConversationTurn) : Json :=
  Json.obj [("id", Json.str t.id),
    ("timestamp", Json.str t.timestamp.isoformat),
    ("user_message", t.user_message.asdict),
    ("assistant_response", optRespAsdict t.assistant_response),
    ("metadata", t.metadata)]

/-- Models Conversation.to_dict: asdict of the dataclass with both timestamps
overwritten by their isoformat strings and the turns overwritten by
ConversationTurn.to_dict of each turn. -/
def Conversation.to_dict (c : Conversation) : Json :=
  Json.obj [("id", Json.str c.id), ("title", Json.str c.title),
    ("created_at", Json.str c.created_at.isoformat),
    ("updated_at", Json.str c.updated_at.isoformat),
    ("turns", Json.arr (c.turns.map ConversationTurn.to_dict)),
    ("system_prompt", match c.system_prompt with
      | Option.none => Json.null
      | some s => Json.str s),
    ("metadata", c.metadata)]

/-- Exception raised by a modelled Python code path. -/
inductive PyErr where
  | keyError (key : String) : PyErr
  | typeError : PyErr
  | valueError : PyErr
  | attributeError : PyErr
  deriving DecidableEq, Repr

/-- Constructor keywords of the ConversationTurn dataclass. -/
def turnKeys : List String :=
  ["id", "timestamp", "user_message", "assistant_response", "metadata"]

/-- Models ConversationTurn.from_dict: looks up and parses the timestamp (a
missing key raises KeyError, a malformed string ValueError), then rebuilds the
dataclass from the dict entries (an unknown or missing required keyword is a
TypeError). The source does not rebuild the nested user_message and
assistant_response dataclasses, so whatever JSON values sit in the document
are stored untyped; a null or absent assistant_response becomes None. The id
is restricted to the string shape this repository writes. -/
def ConversationTurn.from_dict (j : Json) : Except PyErr ConversationTurn := do
  let Json.obj kvs := j | throw PyErr.typeError
  let some tsJ := Json.lookup kvs "timestamp" | throw (PyErr.keyError "timestamp")
  let Json.str tsS := tsJ | throw PyErr.typeError
  let some ts := Datetime.fromisoformat tsS | throw PyErr.valueError
  if !(kvs.all (fun kv => turnKeys.contains kv.1)) then throw PyErr.typeError else do
  let some idJ := Json.lookup kvs "id" | throw PyErr.typeError
  let Json.str idS := idJ | throw PyErr.typeError
  let some um := Json.lookup kvs "user_message" | throw PyErr.typeError
  let ar : Option PyResp := match Json.lookup kvs "assistant_response" with
    | Option.none => Option.none
    | some Json.null => Option.none
    | some r => some (PyResp.raw r)
  let md := (Json.lookup kvs "metadata").getD (Json.obj [])
  pure { id := idS, timestamp := ts, user_message := PyMsg.raw um,
         assistant_response := ar, metadata := md }

/-- Constructor keywords of the Conversation dataclass. -/
def conversationKeys : List String :=
  ["id", "title", "created_at", "updated_at", "turns", "system_prompt", "metadata"]

/-- Models Conversation.from_dict: parses both timestamps, rebuilds each turn
through ConversationTurn.from_dict (the turns entry defaults to an empty
list), then rebuilds the dataclass. The id, title and system_prompt are
restricted to the shapes this repository writes (strings, with system_prompt
possibly null). -/
def Conversation.from_dict (j : Json) : Except PyErr Conversation := do
  let Json.obj kvs := j | throw PyErr.typeError
  let some caJ := Json.lookup kvs "created_at" | throw (PyErr.keyError "created_at")
  let Json.str caS := caJ | throw PyErr.typeError
  let some ca := Datetime.fromisoformat caS | throw PyErr.valueError
  let some uaJ := Json.lookup kvs "updated_at" | throw (PyErr.keyError "updated_at")
  let Json.str uaS := uaJ | throw PyErr.typeError
  let some ua := Datetime.fromisoformat uaS | throw PyErr.valueError
  let Json.arr turnsL := (Json.lookup kvs "turns").getD (Json.arr []) | throw PyErr.typeError
  let turns ← turnsL.mapM ConversationTurn.from_dict
  if !(kvs.all (fun kv => conversationKeys.contains kv.1)) then throw PyErr.typeError else do
  let some idJ := Json.lookup kvs "id" | throw PyErr.typeError
  let Json.str idS := idJ | throw PyErr.typeError
  let some titleJ := Json.lookup kvs "title" | throw PyErr.typeError
  let Json.str titleS := titleJ | throw PyErr.typeError
  let sp : Option String ← match Json.lookup kvs "system_prompt" with
    | Option.none => pure Option.none
    | some Json.null => pure Option.none
    | some (Json.str s) => pure (some s)
    | some _ => throw PyErr.typeError
  let md := (Json.lookup kvs "metadata").getD (Json.obj [])
  pure { id := idS, title := titleS, created_at := ca, updated_at := ua,
         turns := turns, system_prompt := sp, metadata := md }

/-- The slice of the configuration the conversation manager reads. The
personality style is modelled by its string value. -/
structure Config where
  default_style : String
  default_model : String
  temperature : Rat
  max_session_memory : Int
  auto_save_sessions : Bool
  deriving DecidableEq, Repr

/-- ConversationManager state: its configuration and the current conversation
slot. The sessions directory is modelled separately as a FileSystem value
passed to the persistence operations. -/
structure ConversationManager where
  config : Config
  current_conversation : Option Conversation
  deriving DecidableEq, Repr

/-- Default system prompt for the friend style, from
ConversationManager._get_default_system_prompt. -/
def friendPrompt : String :=
  "You are a friendly, warm, and supportive AI companion. Engage in conversations with genuine interest and empathy. Be helpful while maintaining a casual, approachable tone."

/-- Default system prompt for the coach style. -/
def coachPrompt : String :=
  "You are a motivational AI coach focused on helping users achieve their goals. Ask probing questions, provide encouragement, and offer practical advice. Be supportive but also challenge users to grow and improve."

/-- Default system prompt for the assistant style. -/
def assistantPrompt : String :=
  "You are a professional AI assistant. Provide clear, accurate, and helpful responses. Be polite, efficient, and focused on solving problems and answering questions effectively."

/-- Default system prompt for the custom style, also the fallback of the
prompt dictionary lookup. -/
def customPrompt : String :=
  "You are a helpful AI assistant. Respond naturally and adapt your communication style based on the user's preferences and the context of the conversation."

/-- Models ConversationManager._get_default_system_prompt: a dict lookup over
the four styles with the custom prompt as the get fallback. -/
def get_default_system_prompt (style : String) : String :=
  if style = "friend" then friendPrompt
  else if style = "coach" then coachPrompt
  else if style = "assistant" then assistantPrompt
  else if style = "custom" then customPrompt
  else customPrompt

/-- Models ConversationManager.start_new_conversation. The generated uuid and
the current instant are oracle parameters; a falsy (absent or empty) title is
replaced by a Chat heading carrying the strftime rendering of now, a falsy
system prompt by the configured default. The new conversation replaces the
current conversation slot. -/
def ConversationManager.start_new_conversation (m : ConversationManager)
    (title system_prompt : Option String) (now : Datetime) (conversation_id : String) :
    ConversationManager × Conversation :=
  let title2 := match title with
    | some t => if t = "" then "Chat " ++ now.strftimeDateHM else t
    | Option.none => "Chat " ++ now.strftimeDateHM
  let sys2 := match system_prompt with
    | some s => if s = "" then get_default_system_prompt m.config.default_style else s
    | Option.none => get_default_system_prompt m.config.default_style
  let conversation : Conversation := {
    id := conversation_id, title := title2, created_at := now, updated_at := now,
    turns := [],
    system_prompt := some sys2,
    metadata := Json.obj [("style", Json.str m.config.default_style),
      ("model", Json.str m.config.default_model),
      ("temperature", Json.num m.config.temperature)] }
  ({ m with current_conversation := some conversation }, conversation)

/-- Models Conversation.add_turn: appends a fresh turn wrapping the text as a
user message and touches updated_at. The turn id and the two instants read
from the clock (turn timestamp, then updated_at) are oracle parameters. -/
def Conversation.add_turn (c : Conversation) (user_message : String)
    (assistant_response : Option PyResp) (turn_id : String) (t_turn t_upd : Datetime) :
    Conversation × ConversationTurn :=
  let turn : ConversationTurn := {
    id := turn_id, timestamp := t_turn,
    user_message := PyMsg.typed { role := "user", content := user_message },
    assistant_response := assistant_response,
    metadata := Json.obj [] }
  ({ c with turns := c.turns ++ [turn], updated_at := t_upd }, turn)

/-- Models ConversationManager.add_user_message: starts a conversation
implicitly when none is active, then appends a turn through
Conversation.add_turn. -/
def ConversationManager.add_user_message (m : ConversationManager) (message : String)
    (new_conversation_id : String) (t_start : Datetime) (turn_id : String)
    (t_turn t_upd : Datetime) : ConversationManager × ConversationTurn :=
  let c0 := match m.current_conversation with
    | some c => c
    | Option.none => (m.start_new_conversation Option.none Option.none t_start new_conversation_id).2
  let (c2, turn) := c0.add_turn message Option.none turn_id t_turn t_upd
  ({ m with current_conversation := some c2 }, turn)

/-- Models Conversation.get_last_incomplete_turn: the last turn when the turn
list is nonempty and that turn's response slot is falsy, otherwise None. -/
def Conversation.get_last_incomplete_turn (c : Conversation) : Option ConversationTurn :=
  match c.turns.getLast? with
  | some t => if respTruthy t.assistant_response then Option.none else some t
  | Option.none => Option.none

/-- Error raised by ConversationManager.add_assistant_response, both cases a
ValueError in the source. -/
inductive MgrErr where
  | noActiveConversation : MgrErr
  | noIncompleteTurn : MgrErr
  deriving DecidableEq, Repr

/-- Models ConversationManager.add_assistant_response: requires an active
conversation and an incomplete last turn, attaches the typed response to that
turn and touches updated_at with the oracle instant. -/
def ConversationManager.add_assistant_response (m : ConversationManager)
    (response : ChatResponse) (t_upd : Datetime) : Except MgrErr ConversationManager :=
  match m.current_conversation with
  | Option.none => throw MgrErr.noActiveConversation
  | some c =>
    match c.turns.getLast? with
    | Option.none => throw MgrErr.noIncompleteTurn
    | some last =>
      if respTruthy last.assistant_response then throw MgrErr.noIncompleteTurn
      else pure { m with current_conversation := some { c with
        turns := c.turns.dropLast ++
          [{ last with assistant_response := some (PyResp.typed response) }],
        updated_at := t_upd } }

/-- Python slice xs[-k:] for a nonzero integer k, as used for the turn
window. -/
def sliceLast {α : Type} (xs : List α) (k : Int) : List α :=
  if 0 < k then xs.drop (xs.length - k.toNat) else xs.drop (-k).toNat

/-- Models the attribute access response.message: fine on a typed response,
an AttributeError on the plain dict a loaded conversation carries. -/
def PyResp.messageAttr : PyResp → Except PyErr PyMsg
  | PyResp.typed r => pure (PyMsg.typed r.message)
  | PyResp.raw _ => throw PyErr.attributeError

/-- Messages one turn contributes to the model window: the user message, then
the assistant message when the response slot is truthy. -/
def ConversationTurn.llmMessages (t : ConversationTurn) : Except PyErr (List PyMsg) :=
  if respTruthy t.assistant_response then
    match t.assistant_response with
    | some r => do
      let m ← r.messageAttr
      pure [t.user_message, m]
    | Option.none => pure [t.user_message]
  else pure [t.user_message]

/-- Concatenated contributions of a turn list to the model window. -/
def turnsMessages : List ConversationTurn → Except PyErr (List PyMsg)
  | [] => pure []
  | t :: ts => do
    let ms ← t.llmMessages
    let rest ← turnsMessages ts
    pure (ms ++ rest)

/-- Models Conversation.get_messages_for_llm: the system prompt first when the
field is truthy, then the contributions of the included turns; max_turns is
applied as the slice xs[-max_turns:] when it is truthy (not None and not
zero). -/
def Conversation.get_messages_for_llm (c : Conversation) (max_turns : Option Int) :
    Except PyErr (List PyMsg) := do
  let sysMsgs : List PyMsg := match c.system_prompt with
    | some s => if s = "" then [] else [PyMsg.typed { role := "system", content := s }]
    | Option.none => []
  let turns_to_include := match max_turns with
    | some k => if k = 0 then c.turns else sliceLast c.turns k
    | Option.none => c.turns
  let rest ← turnsMessages turns_to_include
  pure (sysMsgs ++ rest)

/-- Models ConversationManager.get_messages_for_llm: the empty list when no
conversation is active, otherwise the conversation window bounded by the
configured max_session_memory. The state is passed through to record that the
method reads but never writes the current conversation slot. -/
def ConversationManager.get_messages_for_llm (m : ConversationManager) :
    ConversationManager × Except PyErr (List PyMsg) :=
  match m.current_conversation with
  | Option.none => (m, Except.ok [])
  | some c => (m, c.get_messages_for_llm (some m.config.max_session_memory))

/-- The sessions directory: file names mapped to the parsed JSON documents
they hold. -/
abbrev FileSystem := List (String × Json)

/-- File lookup by name. -/
def fsLookup (fs : FileSystem) (name : String) : Option Json :=
  match fs with
  | [] => Option.none
  | (n, d) :: rest => if n = name then some d else fsLookup rest name

/-- File write, overwriting in place or appending a fresh entry. -/
def fsWrite (fs : FileSystem) (name : String) (doc : Json) : FileSystem :=
  match fs with
  | [] => [(name, doc)]
  | (n, d) :: rest => if n = name then (name, doc) :: rest else (n, d) :: fsWrite rest name doc

/-- Error raised by ConversationManager.save_conversation when there is
nothing to save, a ValueError in the source. -/
inductive SaveErr where
  | noConversation : SaveErr
  deriving DecidableEq, Repr

/-- Models ConversationManager.save_conversation: the explicit argument or
else the current conversation is serialized wholesale to the file named by its
id; the file path is returned. -/
def ConversationManager.save_conversation (m : ConversationManager)
    (conversation : Option Conversation) (fs : FileSystem) :
    Except SaveErr (FileSystem × String) :=
  let conv? := match conversation with
    | some c => some c
    | Option.none => m.current_conversation
  match conv? with
  | Option.none => Except.error SaveErr.noConversation
  | some conv =>
    Except.ok (fsWrite fs (conv.id ++ ".json") conv.to_dict, conv.id ++ ".json")

/-- Failure of ConversationManager.load_conversation: a missing file raises
FileNotFoundError, and any exception while parsing the document is re-raised
after logging, modelled as a corrupt-record error wrapping it. -/
inductive LoadErr where
  | notFound : LoadErr
  | corruptRecord (e : PyErr) : LoadErr
  deriving DecidableEq, Repr

/-- Models ConversationManager.load_conversation: reads the file named by the
id and rebuilds the conversation through Conversation.from_dict. The manager
state is passed through unchanged: the source returns the conversation
without assigning the current conversation slot. -/
def ConversationManager.load_conversation (m : ConversationManager) (fs : FileSystem)
    (conversation_id : String) : Except LoadErr (ConversationManager × Conversation) :=
  match fsLookup fs (conversation_id ++ ".json") with
  | Option.none => Except.error LoadErr.notFound
  | some doc =>
    match Conversation.from_dict doc with
    | Except.error e => Except.error (LoadErr.corruptRecord e)
    | Except.ok c => Except.ok (m, c)

/-- Summary row produced by ConversationManager.list_conversations. The five
entries are copied out of the document without type checks, so they stay JSON
values; the turn count is a Python len. -/
structure ConversationSummary where
  id : Json
  title : Json
  created_at : Json
  updated_at : Json
  turns_count : Nat
  metadata : Json
  deriving DecidableEq, Repr

/-- Python len of a JSON value; none models a TypeError. -/
def pyLen : Json → Option Nat
  | Json.arr xs => some xs.length
  | Json.str s => some s.length
  | Json.obj kvs => some kvs.length
  | _ => Option.none

/-- Models the per-file body of list_conversations: reads the summary entries
out of one parsed document. A none return models any exception, which the
source catches, logs and skips. -/
def summarize (doc : Json) : Option ConversationSummary := do
  let Json.obj kvs := doc | Option.none
  let id ← Json.lookup kvs "id"
  let title ← Json.lookup kvs "title"
  let ca ← Json.lookup kvs "created_at"
  let ua ← Json.lookup kvs "updated_at"
  let tc ← pyLen ((Json.lookup kvs "turns").getD (Json.arr []))
  pure { id := id, title := title, created_at := ca, updated_at := ua,
         turns_count := tc, metadata := (Json.lookup kvs "metadata").getD (Json.obj []) }

/-- Sort key comparison of list_conversations: the Python sort compares the
raw updated_at entries of the summary dicts. Two strings compare
lexicographically by code point, modelled here as the lexicographic order on
the character lists; comparing a string with any other value raises
TypeError, modelled as the error return. The model raises on every
non-string pair, although Python itself can still order a pair of numbers:
that all-numeric case is asserted by no theorem below and produced by no
document save_conversation writes, each of which stores an isoformat string
there. -/
def updatedAtLt? (a b : ConversationSummary) : Except PyErr Bool :=
  match a.updated_at, b.updated_at with
  | Json.str x, Json.str y => Except.ok (decide (x.data < y.data))
  | _, _ => Except.error PyErr.typeError

/-- Stable descending insertion, modelling the Python stable sort with a key
and reverse set: an element arriving later is placed after every earlier
element whose key is not strictly smaller, and a key comparison that raises
aborts the sort with that error. -/
def insertDescend (x : ConversationSummary) :
    List ConversationSummary → Except PyErr (List ConversationSummary)
  | [] => Except.ok [x]
  | y :: ys =>
    match updatedAtLt? y x with
    | Except.error e => Except.error e
    | Except.ok true => Except.ok (x :: y :: ys)
    | Except.ok false =>
      match insertDescend x ys with
      | Except.error e => Except.error e
      | Except.ok rest => Except.ok (y :: rest)

/-- Loop of the stable descending sort: inserts the remaining elements into
the sorted accumulator in arrival order, propagating a comparison error. -/
def sortDescendAux : List ConversationSummary → List ConversationSummary →
    Except PyErr (List ConversationSummary)
  | acc, [] => Except.ok acc
  | acc, x :: xs =>
    match insertDescend x acc with
    | Except.error e => Except.error e
    | Except.ok acc2 => sortDescendAux acc2 xs

/-- Stable descending sort by the updated_at key, raising like the Python
sort when incomparable keys meet. -/
def sortDescend (l : List ConversationSummary) : Except PyErr (List ConversationSummary) :=
  sortDescendAux [] l

/-- File name matcher of the glob pattern star dot json used over the
sessions directory: the name carries the .json suffix. -/
def isJsonName (name : String) : Bool :=
  List.isSuffixOf (".json".data) name.data

/-- The parseable summaries of the sessions directory in enumeration order:
every json document whose summary extraction raises is skipped. -/
def rawSummaries (fs : FileSystem) : List ConversationSummary :=
  (fs.filter (fun kv => isJsonName kv.1)).filterMap (fun kv => summarize kv.2)

/-- Models ConversationManager.list_conversations: summarizes every json file
of the sessions directory, skipping the ones whose summary extraction raises,
and sorts by updated_at descending. The sort runs outside the per-file
exception handler, so a key comparison error fails the whole listing. -/
def ConversationManager.list_conversations (fs : FileSystem) :
    Except PyErr (List ConversationSummary) :=
  sortDescend (rawSummaries fs)

/-- The updated_at entry of the summary is a string, as it is in every
document save_conversation writes. -/
def strKeyed (s : ConversationSummary) : Bool :=
  match s.updated_at with
  | Json.str _ => true
  | _ => false

/-- Every parseable summary of the store carries a string updated_at
entry. -/
def strUpdatedKeys (fs : FileSystem) : Bool :=
  (rawSummaries fs).all strKeyed

/-- A turn whose slots hold the typed values the manager builds, rather than
the untyped JSON a loaded conversation carries. -/
def ConversationTurn.isTyped (t : ConversationTurn) : Bool :=
  (match t.user_message with
   | PyMsg.typed _ => true
   | PyMsg.raw _ => false) &&
  (match t.assistant_response with
   | Option.none => true
   | some (PyResp.typed _) => true
   | some (PyResp.raw _) => false)

/-- Modelled from the spec: the messages one turn contributes to the model
window, the user message followed by the assistant message only when the turn
is complete. -/
def specTurnMessages (t : ConversationTurn) : List PyMsg :=
  match t.assistant_response with
  | some (PyResp.typed r) => [t.user_message, PyMsg.typed r.message]
  | _ => [t.user_message]

/-- Concatenated spec contributions of a turn list. -/
def specTurnsMessages : List ConversationTurn → List PyMsg
  | [] => []
  | t :: ts => specTurnMessages t ++ specTurnsMessages ts

/-- Modelled from the spec: build_model_window returns the system prompt first
when the conversation has one (an empty prompt counts as absent, matching the
treatment of empty prompts at start), then the contributions of the last
max_turns turns, of all turns when max_turns is unspecified or zero. -/
def specModelWindow (c : Conversation) (max_turns : Option Nat) : List PyMsg :=
  (match c.system_prompt with
   | some s => if s = "" then [] else [PyMsg.typed { role := "system", content := s }]
   | Option.none => []) ++
  specTurnsMessages (match max_turns with
    | Option.none => c.turns
    | some 0 => c.turns
    | some k => c.turns.drop (c.turns.length - k))

/-- Every turn but possibly the last carries an assistant response. -/
def atMostLastIncomplete (c : Conversation) : Bool :=
  c.turns.dropLast.all (fun t => t.assistant_response.isSome)

/-- Manager states reachable through the three conversation mutating
operations of the claim (start, append a user message, complete with a
response), under arbitrary oracle inputs. -/
inductive Reachable : ConversationManager → Prop where
  | init (cfg : Config) :
      Reachable { config := cfg, current_conversation := Option.none }
  | start (m : ConversationManager) (title sysp : Option String) (now : Datetime)
      (cid : String) : Reachable m →
      Reachable (m.start_new_conversation title sysp now cid).1
  | user (m : ConversationManager) (msg cid : String) (t0 : Datetime) (tid : String)
      (t1 t2 : Datetime) : Reachable m →
      Reachable (m.add_user_message msg cid t0 tid t1 t2).1
  | response (m m2 : ConversationManager) (r : ChatResponse) (t : Datetime) :
      Reachable m → m.add_assistant_response r t = Except.ok m2 → Reachable m2

/-- Manager states reachable as above but where a user message is only ever
appended while no incomplete turn exists, the disciplined regime of the chat
loop in which every appended turn is completed or the run stops. -/
inductive ReachableDisciplined : ConversationManager → Prop where
  | init (cfg : Config) :
      ReachableDisciplined { config := cfg, current_conversation := Option.none }
  | start (m : ConversationManager) (title sysp : Option String) (now : Datetime)
      (cid : String) : ReachableDisciplined m →
      ReachableDisciplined (m.start_new_conversation title sysp now cid).1
  | user (m : ConversationManager) (msg cid : String) (t0 : Datetime) (tid : String)
      (t1 t2 : Datetime) : ReachableDisciplined m →
      (∀ c, m.current_conversation = some c → c.get_last_incomplete_turn = Option.none) →
      ReachableDisciplined (m.add_user_message msg cid t0 tid t1 t2).1
  | response (m m2 : ConversationManager) (r : ChatResponse) (t : Datetime) :
      ReachableDisciplined m → m.add_assistant_response r t = Except.ok m2 →
      ReachableDisciplined m2

/-- Lexicographic order on the fields of a datetime; on the aware UTC
datetimes this repository creates it is exactly the order of instants. -/
def Datetime.fieldList (d : Datetime) : List Nat :=
  [d.year, d.month, d.day, d.hour, d.minute, d.second, d.microsecond]

/-- Instant order on UTC datetimes. -/
def Datetime.lexLt (a b : Datetime) : Bool :=
  decide (a.fieldList < b.fieldList)

/-- Field ranges the Python datetime type enforces on construction: every
datetime value that can exist in the source program satisfies them. -/
def Datetime.pyValid (d : Datetime) : Bool :=
  decide (1 ≤ d.year ∧ d.year ≤ 9999 ∧ 1 ≤ d.month ∧ d.month ≤ 12 ∧ 1 ≤ d.day ∧
    d.day ≤ 31 ∧ d.hour ≤ 23 ∧ d.minute ≤ 59 ∧ d.second ≤ 59 ∧ d.microsecond ≤ 999999)

/-- Rational literal for the float 0.7 used as the default temperature. -/
def q07 : Rat := ⟨7, 10, by decide, by decide⟩

/-- Concrete configuration used by the concrete test states. -/
def cfg0 : Config :=
  { default_style := "friend", default_model := "llama-3", temperature := q07,
    max_session_memory := 50, auto_save_sessions := true }

/-- A manager with no active conversation. -/
def mgr0 : ConversationManager := { config := cfg0, current_conversation := Option.none }

/-- Concrete instant with a nonzero microsecond field. -/
def dtA : Datetime := ⟨2024, 3, 5, 14, 30, 15, 123456, some 0⟩

/-- Concrete instant with a zero microsecond field, later than dtA. -/
def dtB : Datetime := ⟨2024, 3, 5, 14, 31, 0, 0, some 0⟩

/-- Concrete instant on the following day. -/
def dtC : Datetime := ⟨2024, 3, 6, 9, 0, 0, 500, some 0⟩

/-- Concrete user message. -/
def msgHi : ChatMessage := { role := "user", content := "hi" }

/-- Concrete chat completion response carrying the given text. -/
def mkResponse (text : String) : ChatResponse :=
  { message := { role := "assistant", content := text },
    usage := { prompt_tokens := 5, completion_tokens := 7, total_tokens := 12 },
    stats := { tokens_per_second := 42, time_to_first_token := q07,
               generation_time := 2, stop_reason := "eosFound" },
    model_info := Json.obj [("arch", Json.str "llama")],
    runtime := { name := "llama.cpp", version := "1.2.0", supported_formats := ["gguf"] },
    id := "chatcmpl-1", created := 1700000000, finish_reason := "stop" }

/-- Concrete complete turn, typed as the manager builds it. -/
def turnC1 : ConversationTurn :=
  { id := "turn-1", timestamp := dtA, user_message := PyMsg.typed msgHi,
    assistant_response := some (PyResp.typed (mkResponse "hello there")),
    metadata := Json.obj [] }

/-- Concrete conversation with one complete turn. -/
def convC1 : Conversation :=
  { id := "conv-1", title := "Test chat", created_at := dtA, updated_at := dtB,
    turns := [turnC1], system_prompt := some "Be brief.",
    metadata := Json.obj [("style", Json.str "friend"), ("model", Json.str "llama-3"),
      ("temperature", Json.num q07)] }

/-- Manager owning convC1. -/
def mgrC1 : ConversationManager := { config := cfg0, current_conversation := some convC1 }

/-- The sessions directory after saving convC1 into an empty directory. -/
def fsC1 : FileSystem := [("conv-1.json", convC1.to_dict)]

/-- The turn as it comes back from disk: the message slots hold plain JSON
dicts because ConversationTurn.from_dict does not rebuild the dataclasses. -/
def turnC1loaded : ConversationTurn :=
  { turnC1 with
    user_message := PyMsg.raw (msgHi.asdict),
    assistant_response := some (PyResp.raw ((mkResponse "hello there").asdict)) }

/-- The conversation convC1 as it comes back from disk. -/
def convC1loaded : Conversation := { convC1 with turns := [turnC1loaded] }

/-- Concrete empty conversation, the active one of the load scenario. -/
def convA : Conversation :=
  { id := "conv-a", title := "First", created_at := dtA, updated_at := dtA, turns := [],
    system_prompt := some "SA", metadata := Json.obj [] }

/-- Concrete empty conversation stored on disk in the load scenario. -/
def convB : Conversation :=
  { id := "conv-b", title := "Second", created_at := dtB, updated_at := dtB, turns := [],
    system_prompt := some "SB", metadata := Json.obj [] }

/-- Manager whose active conversation is convA. -/
def mgrC2 : ConversationManager := { config := cfg0, current_conversation := some convA }

/-- Sessions directory holding only convB. -/
def fsC2 : FileSystem := [("conv-b.json", convB.to_dict)]

/-- Sessions directory holding a document with only an id entry. -/
def fsOnlyId : FileSystem := [("x.json", Json.obj [("id", Json.str "x")])]

/-- Sessions directory holding a document whose timestamps are not ISO
strings. -/
def fsBadTimestamp : FileSystem :=
  [("y.json", Json.obj [("id", Json.str "y"), ("title", Json.str "Broken"),
    ("created_at", Json.str "not-a-date"), ("updated_at", Json.str "also wrong")])]

/-- Complete typed turn number i of the window scenario. -/
def turnW (i : Nat) : ConversationTurn :=
  { id := "turn-" ++ toString i, timestamp := dtA,
    user_message := PyMsg.typed { role := "user", content := "q" ++ toString i },
    assistant_response := some (PyResp.typed (mkResponse ("a" ++ toString i))),
    metadata := Json.obj [] }

/-- Incomplete turn of the window scenario. -/
def turnWOpen : ConversationTurn :=
  { id := "turn-open", timestamp := dtB,
    user_message := PyMsg.typed { role := "user", content := "q-open" },
    assistant_response := Option.none, metadata := Json.obj [] }

/-- Conversation with five complete turns and a system prompt. -/
def convC4 : Conversation :=
  { id := "conv-4", title := "Window", created_at := dtA, updated_at := dtB,
    turns := [turnW 1, turnW 2, turnW 3, turnW 4, turnW 5],
    system_prompt := some "SYS", metadata := Json.obj [] }

/-- Conversation whose last turn is incomplete. -/
def convC4open : Conversation :=
  { convC4 with turns := [turnW 1, turnW 2, turnWOpen] }

/-- First saved instant of the listing scenario. -/
def dtU1 : Datetime := ⟨2024, 5, 1, 10, 0, 0, 0, some 0⟩

/-- Second saved instant, one microsecond later. -/
def dtU2 : Datetime := ⟨2024, 5, 1, 10, 0, 0, 1, some 0⟩

/-- Third saved instant, one second after the first. -/
def dtU3 : Datetime := ⟨2024, 5, 1, 10, 0, 1, 0, some 0⟩

/-- Empty conversation of the listing scenario with the given id and update
instant. -/
def convL (i : String) (upd : Datetime) : Conversation :=
  { id := i, title := "List " ++ i, created_at := dtA, updated_at := upd, turns := [],
    system_prompt := some "S", metadata := Json.obj [] }

/-- Sessions directory after saving the three listing conversations in the
order first, second, third. -/
def fsC8 : FileSystem :=
  [("conv-u1.json", (convL "conv-u1" dtU1).to_dict),
   ("conv-u2.json", (convL "conv-u2" dtU2).to_dict),
   ("conv-u3.json", (convL "conv-u3" dtU3).to_dict)]

/-- The same directory with an unparseable extra document. -/
def fsC8bad : FileSystem :=
  fsC8 ++ [("bad.json", Json.obj [("id", Json.str "bad")])]

/-- Summary row of a listing conversation. -/
def sumL (i : String) (upd : Datetime) : ConversationSummary :=
  { id := Json.str i, title := Json.str ("List " ++ i),
    created_at := Json.str dtA.isoformat, updated_at := Json.str upd.isoformat,
    turns_count := 0, metadata := Json.obj [] }

/-- Sessions directory after saving one conversation at the first instant and
then two conversations sharing the third instant, in the order a, b, c. -/
def fsC8tie : FileSystem :=
  [("conv-ta.json", (convL "conv-ta" dtU1).to_dict),
   ("conv-tb.json", (convL "conv-tb" dtU3).to_dict),
   ("conv-tc.json", (convL "conv-tc" dtU3).to_dict)]

/-- A directory whose two documents parse but carry one non-string updated_at
entry beside a string one, so the sort key comparison raises. -/
def fsC8mixed : FileSystem :=
  [("m1.json", Json.obj [("id", Json.str "m1"), ("title", Json.str "M1"),
     ("created_at", Json.str (dtA.isoformat)), ("updated_at", Json.int 5),
     ("turns", Json.arr []), ("metadata", Json.obj [])]),
   ("m2.json", (convL "m2" dtU1).to_dict)]

/-- Manager state after one user message on the empty manager. -/
def mgrOneAppend : ConversationManager :=
  (mgr0.add_user_message "hello" "conv-x" dtA "turn-x1" dtA dtA).1

/-- Manager state after a second user message with no completion between. -/
def mgrTwoAppends : ConversationManager :=
  (mgrOneAppend.add_user_message "again" "conv-y" dtB "turn-x2" dtB dtB).1


/-- Manager owning the conversation whose last turn is incomplete. -/
def mgrC4open : ConversationManager :=
  { config := cfg0, current_conversation := some convC4open }

/-- The conversation of mgrC4open after completing its open turn with a
concrete response at instant dtC. -/
def convC4done : Conversation :=
  { convC4open with
    turns := convC4open.turns.dropLast ++
      [{ turnWOpen with assistant_response := some (PyResp.typed (mkResponse "done")) }],
    updated_at := dtC }

/-- The manager state after that completion. -/
def mgrC4done : ConversationManager :=
  { config := cfg0, current_conversation := some convC4done }

/-- The conversation created by one user message on the empty manager, the
one mgrOneAppend owns. -/
def convOneAppend : Conversation :=
  ((mgr0.start_new_conversation Option.none Option.none dtA "conv-x").2.add_turn
    "hello" Option.none "turn-x1" dtA dtA).1

/-- C1: the round-trip claim fails on the code and the code is at fault:
saving the one-turn conversation convC1 and loading it back by its id yields a
conversation that is not equal to convC1, because ConversationTurn.from_dict
restores only the timestamp and leaves user_message and assistant_response as
plain JSON dicts. Ids, titles and every timestamp instant do round trip; the
typed message slots do not, so equality in every field fails for any
conversation with at least one turn. -/
theorem C1_roundtrip_code_bug :
    mgrC1.save_conversation Option.none [] = Except.ok (fsC1, "conv-1.json") ∧
    mgrC1.load_conversation fsC1 "conv-1" = Except.ok (mgrC1, convC1loaded) ∧
    convC1loaded ≠ convC1 ∧
    convC1loaded.id = convC1.id ∧ convC1loaded.title = convC1.title ∧
    convC1loaded.created_at = convC1.created_at ∧
    convC1loaded.updated_at = convC1.updated_at ∧
    convC1loaded.turns.map ConversationTurn.timestamp
      = convC1.turns.map ConversationTurn.timestamp ∧
    convC1loaded.turns.map ConversationTurn.user_message = [PyMsg.raw (msgHi.asdict)] ∧
    convC1.turns.map ConversationTurn.user_message = [PyMsg.typed msgHi] := by
  refine ⟨rfl, rfl, by decide, rfl, rfl, rfl, rfl, rfl, rfl, rfl⟩

/-- C2 counterexample: loading conv-b returns the deserialized conversation
but the manager state, including the active conversation slot still holding
convA, is unchanged, so the claim that load replaces the active conversation
fails at this input. -/
theorem C2_load_counterexample :
    mgrC2.load_conversation fsC2 "conv-b" = Except.ok (mgrC2, convB) ∧
    mgrC2.current_conversation = some convA ∧ convA ≠ convB := by
  refine ⟨rfl, rfl, by decide⟩

/-- C2 amended: for every stored id, load_conversation returns the
deserialized conversation and passes the manager state through unchanged;
replacing the active conversation is left to the caller. -/
theorem C2_load_returns_without_replacing
    (m : ConversationManager) (fs : FileSystem) (cid : String) (doc : Json) (c : Conversation)
    (h1 : fsLookup fs (cid ++ ".json") = some doc)
    (h2 : Conversation.from_dict doc = Except.ok c) :
    m.load_conversation fs cid = Except.ok (m, c) := by
  simp only [ConversationManager.load_conversation, h1, h2]

/-- C2 witness: the amended load theorem applied to the concrete store. -/
theorem C2_load_witness :
    mgrC2.load_conversation fsC2 "conv-b" = Except.ok (mgrC2, convB) :=
  C2_load_returns_without_replacing mgrC2 fsC2 "conv-b" (convB.to_dict) convB rfl rfl

/-- C7: loading an id with no record fails with the not-found error, and
loading a document that does not parse into a well formed conversation (one
holding only an id, or one with malformed timestamp strings) fails with a
corrupt-record error rather than succeeding. -/
theorem C7_load_failures :
    (∀ (m : ConversationManager) (fs : FileSystem) (cid : String),
      fsLookup fs (cid ++ ".json") = Option.none →
      m.load_conversation fs cid = Except.error LoadErr.notFound) ∧
    mgr0.load_conversation fsOnlyId "x"
      = Except.error (LoadErr.corruptRecord (PyErr.keyError "created_at")) ∧
    mgr0.load_conversation fsBadTimestamp "y"
      = Except.error (LoadErr.corruptRecord PyErr.valueError) := by
  refine ⟨?_, rfl, rfl⟩
  intro m fs cid h
  simp only [ConversationManager.load_conversation, h]

/-- C7 witness: the not-found case applied to the empty store. -/
theorem C7_witness :
    fsLookup [] ("nope" ++ ".json") = Option.none ∧
    mgr0.load_conversation [] "nope" = Except.error LoadErr.notFound :=
  ⟨rfl, C7_load_failures.1 mgr0 [] "nope" rfl⟩

/-- C9: with no active conversation the manager message window is the empty
list and the manager state is returned unchanged: no conversation is started
implicitly and the current-conversation slot is untouched. -/
theorem C9_empty_window_no_start (m : ConversationManager)
    (h : m.current_conversation = Option.none) :
    m.get_messages_for_llm = (m, Except.ok []) := by
  simp only [ConversationManager.get_messages_for_llm, h]

/-- C9 witness: the empty-window theorem applied to the fresh manager. -/
theorem C9_witness :
    mgr0.current_conversation = Option.none ∧
    mgr0.get_messages_for_llm = (mgr0, Except.ok []) :=
  ⟨rfl, C9_empty_window_no_start mgr0 rfl⟩


theorem get_default_system_prompt_ne_empty (style : String) :
    get_default_system_prompt style ≠ "" := by
  unfold get_default_system_prompt
  split
  · decide
  · split
    · decide
    · split
      · decide
      · split <;> decide

/-- C5: append_user_message leaves exactly the previous turns plus one new
turn appended at the end; the new turn wraps the text as a user-role message,
has no assistant response, is returned with the given fresh id and timestamp,
and updated_at is set to the append instant. With no active conversation one
is implicitly started first, carrying the fresh conversation id. -/
theorem C5_append_user_message :
    (∀ (m : ConversationManager) (c : Conversation) (text cid : String) (t0 : Datetime)
       (tid : String) (t1 t2 : Datetime), m.current_conversation = some c →
       (m.add_user_message text cid t0 tid t1 t2).1.current_conversation.map Conversation.turns
         = some (c.turns ++ [(m.add_user_message text cid t0 tid t1 t2).2]) ∧
       (m.add_user_message text cid t0 tid t1 t2).1.current_conversation.map Conversation.id
         = some c.id ∧
       (m.add_user_message text cid t0 tid t1 t2).1.current_conversation.map
           Conversation.updated_at = some t2) ∧
    (∀ (m : ConversationManager) (text cid : String) (t0 : Datetime) (tid : String)
       (t1 t2 : Datetime), m.current_conversation = Option.none →
       (m.add_user_message text cid t0 tid t1 t2).1.current_conversation.map Conversation.turns
         = some [(m.add_user_message text cid t0 tid t1 t2).2] ∧
       (m.add_user_message text cid t0 tid t1 t2).1.current_conversation.map Conversation.id
         = some cid ∧
       (m.add_user_message text cid t0 tid t1 t2).1.current_conversation.map
           Conversation.updated_at = some t2) ∧
    (∀ (m : ConversationManager) (text cid : String) (t0 : Datetime) (tid : String)
       (t1 t2 : Datetime),
       (m.add_user_message text cid t0 tid t1 t2).2.user_message
         = PyMsg.typed { role := "user", content := text } ∧
       (m.add_user_message text cid t0 tid t1 t2).2.assistant_response = Option.none ∧
       (m.add_user_message text cid t0 tid t1 t2).2.id = tid ∧
       (m.add_user_message text cid t0 tid t1 t2).2.timestamp = t1) := by
  refine ⟨?_, ?_, ?_⟩
  · intro m c text cid t0 tid t1 t2 h
    simp only [ConversationManager.add_user_message, Conversation.add_turn, h]
    exact ⟨rfl, rfl, rfl⟩
  · intro m text cid t0 tid t1 t2 h
    simp only [ConversationManager.add_user_message, Conversation.add_turn,
      ConversationManager.start_new_conversation, h]
    exact ⟨rfl, rfl, rfl⟩
  · intro m text cid t0 tid t1 t2
    exact ⟨rfl, rfl, rfl, rfl⟩

/-- C5 witness: both branches of the append theorem at concrete inputs. -/
theorem C5_witness :
    mgrC1.current_conversation = some convC1 ∧
    (mgrC1.add_user_message "more" "cid-w" dtC "turn-w" dtC dtC).1.current_conversation.map
        Conversation.turns
      = some (convC1.turns ++ [(mgrC1.add_user_message "more" "cid-w" dtC "turn-w" dtC dtC).2]) ∧
    mgr0.current_conversation = Option.none ∧
    (mgr0.add_user_message "first" "cid-w2" dtC "turn-w2" dtC dtC).1.current_conversation.map
        Conversation.id = some "cid-w2" ∧
    (mgr0.add_user_message "first" "cid-w2" dtC "turn-w2" dtC dtC).2.assistant_response
      = Option.none :=
  ⟨rfl,
   (C5_append_user_message.1 mgrC1 convC1 "more" "cid-w" dtC "turn-w" dtC dtC rfl).1,
   rfl,
   (C5_append_user_message.2.1 mgr0 "first" "cid-w2" dtC "turn-w2" dtC dtC rfl).2.1,
   (C5_append_user_message.2.2 mgr0 "first" "cid-w2" dtC "turn-w2" dtC dtC).2.1⟩

/-- C6: add_assistant_response fails with the no-active-conversation error
when none is active, fails with the no-incomplete-turn error when there are no
turns or the last turn already has a typed response (hence a second call in a
row without an intervening append fails), and on success attaches the
response to the last turn, keeps every earlier turn, and sets updated_at. -/
theorem C6_complete_with_response :
    (∀ (m : ConversationManager) (r : ChatResponse) (t : Datetime),
       m.current_conversation = Option.none →
       m.add_assistant_response r t = Except.error MgrErr.noActiveConversation) ∧
    (∀ (m : ConversationManager) (c : Conversation) (r : ChatResponse) (t : Datetime),
       m.current_conversation = some c → c.turns = [] →
       m.add_assistant_response r t = Except.error MgrErr.noIncompleteTurn) ∧
    (∀ (m : ConversationManager) (c : Conversation) (last : ConversationTurn)
       (r0 r : ChatResponse) (t : Datetime),
       m.current_conversation = some c → c.turns.getLast? = some last →
       last.assistant_response = some (PyResp.typed r0) →
       m.add_assistant_response r t = Except.error MgrErr.noIncompleteTurn) ∧
    (∀ (m : ConversationManager) (c : Conversation) (last : ConversationTurn)
       (r : ChatResponse) (t : Datetime),
       m.current_conversation = some c → c.turns.getLast? = some last →
       last.assistant_response = Option.none →
       m.add_assistant_response r t = Except.ok { m with
         current_conversation := some { c with
           turns := c.turns.dropLast ++
             [{ last with assistant_response := some (PyResp.typed r) }],
           updated_at := t } }) ∧
    (∀ (m m2 : ConversationManager) (c : Conversation) (last : ConversationTurn)
       (r r2 : ChatResponse) (t t2 : Datetime),
       m.current_conversation = some c → c.turns.getLast? = some last →
       last.assistant_response = Option.none →
       m.add_assistant_response r t = Except.ok m2 →
       m2.add_assistant_response r2 t2 = Except.error MgrErr.noIncompleteTurn) := by
  have part1 : ∀ (m : ConversationManager) (r : ChatResponse) (t : Datetime),
      m.current_conversation = Option.none →
      m.add_assistant_response r t = Except.error MgrErr.noActiveConversation := by
    intro m r t h
    simp only [ConversationManager.add_assistant_response, h]
    rfl
  have part2 : ∀ (m : ConversationManager) (c : Conversation) (r : ChatResponse) (t : Datetime),
      m.current_conversation = some c → c.turns = [] →
      m.add_assistant_response r t = Except.error MgrErr.noIncompleteTurn := by
    intro m c r t h1 h2
    simp only [ConversationManager.add_assistant_response, h1, h2, List.getLast?_nil]
    rfl
  have part3 : ∀ (m : ConversationManager) (c : Conversation) (last : ConversationTurn)
      (r0 r : ChatResponse) (t : Datetime),
      m.current_conversation = some c → c.turns.getLast? = some last →
      last.assistant_response = some (PyResp.typed r0) →
      m.add_assistant_response r t = Except.error MgrErr.noIncompleteTurn := by
    intro m c last r0 r t h1 h2 h3
    simp only [ConversationManager.add_assistant_response, h1, h2, h3, respTruthy, if_true]
    rfl
  have part4 : ∀ (m : ConversationManager) (c : Conversation) (last : ConversationTurn)
      (r : ChatResponse) (t : Datetime),
      m.current_conversation = some c → c.turns.getLast? = some last →
      last.assistant_response = Option.none →
      m.add_assistant_response r t = Except.ok { m with
        current_conversation := some { c with
          turns := c.turns.dropLast ++
            [{ last with assistant_response := some (PyResp.typed r) }],
          updated_at := t } } := by
    intro m c last r t h1 h2 h3
    simp only [ConversationManager.add_assistant_response, h1, h2, h3, respTruthy,
      Bool.false_eq_true, if_false]
    rfl
  refine ⟨part1, part2, part3, part4, ?_⟩
  intro m m2 c last r r2 t t2 h1 h2 h3 h4
  have h5 := part4 m c last r t h1 h2 h3
  rw [h4] at h5
  injection h5 with h6
  subst h6
  simp only [ConversationManager.add_assistant_response, List.getLast?_concat, respTruthy,
    if_true]
  rfl

/-- C6 witness: all five parts of the completion theorem at concrete
states. -/
theorem C6_witness :
    mgr0.add_assistant_response (mkResponse "w") dtC
      = Except.error MgrErr.noActiveConversation ∧
    mgrC2.add_assistant_response (mkResponse "w") dtC
      = Except.error MgrErr.noIncompleteTurn ∧
    mgrC1.add_assistant_response (mkResponse "w") dtC
      = Except.error MgrErr.noIncompleteTurn ∧
    mgrC4open.add_assistant_response (mkResponse "done") dtC = Except.ok mgrC4done ∧
    mgrC4done.add_assistant_response (mkResponse "w2") dtB
      = Except.error MgrErr.noIncompleteTurn :=
  ⟨C6_complete_with_response.1 mgr0 (mkResponse "w") dtC rfl,
   C6_complete_with_response.2.1 mgrC2 convA (mkResponse "w") dtC rfl rfl,
   C6_complete_with_response.2.2.1 mgrC1 convC1 turnC1 (mkResponse "hello there")
     (mkResponse "w") dtC rfl rfl rfl,
   C6_complete_with_response.2.2.2.1 mgrC4open convC4open turnWOpen (mkResponse "done") dtC
     rfl rfl rfl,
   C6_complete_with_response.2.2.2.2 mgrC4open mgrC4done convC4open turnWOpen
     (mkResponse "done") (mkResponse "w2") dtC dtB rfl rfl rfl rfl⟩

/-- C10: start_new_conversation always installs the created conversation as
the current one with a non-empty system prompt; an omitted or empty system
prompt (and likewise an empty or omitted title) is treated as absent and
replaced by the configured default, and an unknown personality style falls
back to the custom prompt, which is never empty. -/
theorem C10_start_defaults :
    (∀ (m : ConversationManager) (title sysp : Option String) (now : Datetime) (cid : String),
       (m.start_new_conversation title sysp now cid).1.current_conversation
         = some (m.start_new_conversation title sysp now cid).2) ∧
    (∀ (m : ConversationManager) (title sysp : Option String) (now : Datetime) (cid : String),
       ∃ s, (m.start_new_conversation title sysp now cid).2.system_prompt = some s ∧ s ≠ "") ∧
    (∀ (m : ConversationManager) (title : Option String) (now : Datetime) (cid : String),
       (m.start_new_conversation title Option.none now cid).2.system_prompt
         = some (get_default_system_prompt m.config.default_style) ∧
       (m.start_new_conversation title (some "") now cid).2.system_prompt
         = some (get_default_system_prompt m.config.default_style)) ∧
    (∀ (m : ConversationManager) (sysp : Option String) (now : Datetime) (cid : String),
       (m.start_new_conversation Option.none sysp now cid).2.title
         = "Chat " ++ now.strftimeDateHM ∧
       (m.start_new_conversation (some "") sysp now cid).2.title
         = "Chat " ++ now.strftimeDateHM) ∧
    (∀ style : String, style ∉ ["friend", "coach", "assistant", "custom"] →
       get_default_system_prompt style = customPrompt) ∧
    (∀ style : String, get_default_system_prompt style ≠ "") := by
  refine ⟨fun m title sysp now cid => rfl, ?_, fun m title now cid => ⟨rfl, rfl⟩,
    fun m sysp now cid => ⟨rfl, rfl⟩, ?_, get_default_system_prompt_ne_empty⟩
  · intro m title sysp now cid
    cases sysp with
    | none => exact ⟨_, rfl, get_default_system_prompt_ne_empty _⟩
    | some s =>
      by_cases hs : s = ""
      · subst hs
        exact ⟨_, rfl, get_default_system_prompt_ne_empty _⟩
      · refine ⟨s, ?_, hs⟩
        simp only [ConversationManager.start_new_conversation]
        rw [if_neg hs]
  · intro style h
    simp only [List.mem_cons, List.not_mem_nil, or_false, not_or] at h
    obtain ⟨h1, h2, h3, h4⟩ := h
    simp only [get_default_system_prompt, if_neg h1, if_neg h2, if_neg h3, if_neg h4]

/-- C10 witness: the fallback clause applied to an unknown style. -/
theorem C10_witness :
    ("weird" ∉ ["friend", "coach", "assistant", "custom"]) ∧
    get_default_system_prompt "weird" = customPrompt :=
  ⟨by decide, C10_start_defaults.2.2.2.2.1 "weird" (by decide)⟩


theorem llmMessages_of_none (t : ConversationTurn) (h : t.assistant_response = Option.none) :
    t.llmMessages = Except.ok [t.user_message] := by
  simp only [ConversationTurn.llmMessages, h, respTruthy, Bool.false_eq_true, if_false]
  rfl

theorem llmMessages_of_typed (t : ConversationTurn) (r : ChatResponse)
    (h : t.assistant_response = some (PyResp.typed r)) :
    t.llmMessages = Except.ok [t.user_message, PyMsg.typed r.message] := by
  simp only [ConversationTurn.llmMessages, h, respTruthy, if_true, PyResp.messageAttr]
  rfl

theorem turnsMessages_eq_spec (ts : List ConversationTurn)
    (h : ∀ t ∈ ts, t.isTyped = true) :
    turnsMessages ts = Except.ok (specTurnsMessages ts) := by
  induction ts with
  | nil => rfl
  | cons t ts ih =>
    have ht : t.isTyped = true := h t (List.mem_cons_self t ts)
    have hrest := ih (fun x hx => h x (List.mem_cons_of_mem t hx))
    match har : t.assistant_response with
    | Option.none =>
      simp only [turnsMessages, llmMessages_of_none t har, hrest, specTurnsMessages,
        specTurnMessages, har]
      rfl
    | some (PyResp.typed r) =>
      simp only [turnsMessages, llmMessages_of_typed t r har, hrest, specTurnsMessages,
        specTurnMessages, har]
      rfl
    | some (PyResp.raw j) =>
      simp only [ConversationTurn.isTyped, har, Bool.and_eq_true] at ht
      simp at ht

theorem get_messages_ok (c : Conversation) (ts : List ConversationTurn) (mt : Option Int)
    (hts : (match mt with
        | some k => if k = 0 then c.turns else sliceLast c.turns k
        | Option.none => c.turns) = ts)
    (hmsgs : turnsMessages ts = Except.ok (specTurnsMessages ts)) :
    c.get_messages_for_llm mt = Except.ok ((match c.system_prompt with
      | some s => if s = "" then [] else [PyMsg.typed { role := "system", content := s }]
      | Option.none => []) ++ specTurnsMessages ts) := by
  simp only [Conversation.get_messages_for_llm, hts, hmsgs]
  rfl

/-- C4: on conversations whose turns carry typed values (as every
manager-built conversation does), get_messages_for_llm equals the spec
modelled window: the non-empty system prompt first, then for each included
turn the user message followed by the assistant message only when the turn is
complete, the included turns being the last max_turns ones and all turns for
None or zero. Concretely, five complete turns with a system prompt and
max_turns two give exactly the five listed messages, and a conversation whose
last turn is incomplete contributes its user message but no assistant
message. -/
theorem C4_build_model_window :
    (∀ (c : Conversation), (∀ t ∈ c.turns, t.isTyped = true) →
      (∀ k : Nat,
        c.get_messages_for_llm (some (k : Int)) = Except.ok (specModelWindow c (some k))) ∧
      c.get_messages_for_llm Option.none = Except.ok (specModelWindow c Option.none)) ∧
    convC4.get_messages_for_llm (some 2) = Except.ok
      [PyMsg.typed { role := "system", content := "SYS" },
       PyMsg.typed { role := "user", content := "q4" },
       PyMsg.typed { role := "assistant", content := "a4" },
       PyMsg.typed { role := "user", content := "q5" },
       PyMsg.typed { role := "assistant", content := "a5" }] ∧
    convC4open.get_messages_for_llm Option.none = Except.ok
      [PyMsg.typed { role := "system", content := "SYS" },
       PyMsg.typed { role := "user", content := "q1" },
       PyMsg.typed { role := "assistant", content := "a1" },
       PyMsg.typed { role := "user", content := "q2" },
       PyMsg.typed { role := "assistant", content := "a2" },
       PyMsg.typed { role := "user", content := "q-open" }] := by
  refine ⟨?_, rfl, rfl⟩
  intro c h
  constructor
  · intro k
    match k with
    | 0 =>
      have hmsgs := turnsMessages_eq_spec c.turns h
      have := get_messages_ok c c.turns (some ((0:Nat) : Int)) rfl hmsgs
      rw [this]
      rfl
    | Nat.succ j =>
      have hsub : ∀ t ∈ c.turns.drop (c.turns.length - (j+1)), t.isTyped = true :=
        fun t ht => h t (List.mem_of_mem_drop ht)
      have hmsgs := turnsMessages_eq_spec _ hsub
      have hts : (match (some ((j+1 : Nat) : Int) : Option Int) with
          | some k => if k = 0 then c.turns else sliceLast c.turns k
          | Option.none => c.turns) = c.turns.drop (c.turns.length - (j+1)) := by
        have hz : ¬ (((j+1 : Nat) : Int) = 0) := by exact_mod_cast Nat.succ_ne_zero j
        have hp : (0 : Int) < ((j+1 : Nat) : Int) := by exact_mod_cast Nat.succ_pos j
        simp only [if_neg hz, sliceLast, if_pos hp, Int.toNat_natCast]
      have := get_messages_ok c _ (some ((j+1 : Nat) : Int)) hts hmsgs
      rw [this]
      rfl
  · have hmsgs := turnsMessages_eq_spec c.turns h
    have := get_messages_ok c c.turns Option.none rfl hmsgs
    rw [this]
    rfl

/-- C4 witness: the window theorem applied to the five-turn conversation. -/
theorem C4_witness :
    (∀ t ∈ convC4.turns, t.isTyped = true) ∧
    convC4.get_messages_for_llm (some ((2:Nat) : Int))
      = Except.ok (specModelWindow convC4 (some 2)) :=
  ⟨by decide, (C4_build_model_window.1 convC4 (by decide)).1 2⟩


theorem updatedAtLt_ok_true_iff {a b : ConversationSummary} :
    updatedAtLt? a b = Except.ok true ↔
      ∃ x y, a.updated_at = Json.str x ∧ b.updated_at = Json.str y ∧ x.data < y.data := by
  unfold updatedAtLt?
  cases ha : a.updated_at <;> cases hb : b.updated_at <;> simp

theorem updatedAtLt_ok_false_iff {a b : ConversationSummary} :
    updatedAtLt? a b = Except.ok false ↔
      ∃ x y, a.updated_at = Json.str x ∧ b.updated_at = Json.str y ∧ ¬ x.data < y.data := by
  unfold updatedAtLt?
  cases ha : a.updated_at <;> cases hb : b.updated_at <;> simp

theorem updatedAtLt_asymm {a b : ConversationSummary}
    (h : updatedAtLt? a b = Except.ok true) : updatedAtLt? b a = Except.ok false := by
  rw [updatedAtLt_ok_true_iff] at h
  rw [updatedAtLt_ok_false_iff]
  obtain ⟨x, y, hax, hby, hxy⟩ := h
  exact ⟨y, x, hby, hax, lt_asymm hxy⟩

theorem updatedAtLt_congr {a b c : ConversationSummary}
    (h : b.updated_at = c.updated_at) : updatedAtLt? a b = updatedAtLt? a c := by
  unfold updatedAtLt?
  rw [h]

theorem ne_key_of_updatedAtLt {a b : ConversationSummary}
    (h : updatedAtLt? a b = Except.ok true) : a.updated_at ≠ b.updated_at := by
  rw [updatedAtLt_ok_true_iff] at h
  obtain ⟨x, y, hax, hby, hxy⟩ := h
  intro he
  rw [hax, hby] at he
  injection he with e
  subst e
  exact lt_irrefl _ hxy

theorem insertDescend_perm (x : ConversationSummary) :
    ∀ l out : List ConversationSummary, insertDescend x l = Except.ok out →
      List.Perm out (x :: l) := by
  intro l
  induction l with
  | nil =>
    intro out h
    injection h with h
    subst h
    exact List.Perm.refl _
  | cons y ys ih =>
    intro out h
    cases hcmp : updatedAtLt? y x with
    | error e =>
      simp only [insertDescend, hcmp] at h
      exact Except.noConfusion h
    | ok b =>
      cases b with
      | true =>
        simp only [insertDescend, hcmp] at h
        injection h with h
        subst h
        exact List.Perm.refl _
      | false =>
        cases hrec : insertDescend x ys with
        | error e =>
          simp only [insertDescend, hcmp, hrec] at h
          exact Except.noConfusion h
        | ok rest =>
          simp only [insertDescend, hcmp, hrec] at h
          injection h with h
          subst h
          exact ((ih rest hrec).cons y).trans (List.Perm.swap x y ys)

theorem insertDescend_pairwise (x : ConversationSummary) :
    ∀ l out : List ConversationSummary,
      l.Pairwise (fun a b => updatedAtLt? a b = Except.ok false) →
      insertDescend x l = Except.ok out →
      out.Pairwise (fun a b => updatedAtLt? a b = Except.ok false) := by
  intro l
  induction l with
  | nil =>
    intro out _ h
    injection h with h
    subst h
    exact List.pairwise_singleton _ _
  | cons y ys ih =>
    intro out hp h
    rw [List.pairwise_cons] at hp
    obtain ⟨hy, hys⟩ := hp
    cases hcmp : updatedAtLt? y x with
    | error e =>
      simp only [insertDescend, hcmp] at h
      exact Except.noConfusion h
    | ok b =>
      cases b with
      | true =>
        simp only [insertDescend, hcmp] at h
        injection h with h
        subst h
        rw [List.pairwise_cons]
        refine ⟨?_, by rw [List.pairwise_cons]; exact ⟨hy, hys⟩⟩
        intro z hz
        rcases List.mem_cons.mp hz with hz | hz
        · subst hz
          exact updatedAtLt_asymm hcmp
        · have h1 := hcmp
          rw [updatedAtLt_ok_true_iff] at h1
          have h2 := hy z hz
          rw [updatedAtLt_ok_false_iff] at h2
          rw [updatedAtLt_ok_false_iff]
          obtain ⟨u, v, hyu, hxv, huv⟩ := h1
          obtain ⟨u2, w, hyu2, hzw, hnw⟩ := h2
          rw [hyu] at hyu2
          injection hyu2 with e
          subst e
          exact ⟨v, w, hxv, hzw, fun hvw => hnw (lt_trans huv hvw)⟩
      | false =>
        cases hrec : insertDescend x ys with
        | error e =>
          simp only [insertDescend, hcmp, hrec] at h
          exact Except.noConfusion h
        | ok rest =>
          simp only [insertDescend, hcmp, hrec] at h
          injection h with h
          subst h
          rw [List.pairwise_cons]
          refine ⟨?_, ih rest hys hrec⟩
          intro z hz
          have hz2 := (insertDescend_perm x ys rest hrec).mem_iff.mp hz
          rcases List.mem_cons.mp hz2 with hz2 | hz2
          · subst hz2
            exact hcmp
          · exact hy z hz2

theorem insertDescend_filter (x : ConversationSummary) (key : Json) :
    ∀ l out : List ConversationSummary,
      l.Pairwise (fun a b => updatedAtLt? a b = Except.ok false) →
      insertDescend x l = Except.ok out →
      out.filter (fun s => decide (s.updated_at = key))
        = l.filter (fun s => decide (s.updated_at = key))
          ++ if x.updated_at = key then [x] else [] := by
  intro l
  induction l with
  | nil =>
    intro out _ h
    injection h with h
    subst h
    by_cases hk : x.updated_at = key
    · simp [List.filter, hk]
    · simp [List.filter, hk]
  | cons y ys ih =>
    intro out hp h
    rw [List.pairwise_cons] at hp
    obtain ⟨hy, hys⟩ := hp
    cases hcmp : updatedAtLt? y x with
    | error e =>
      simp only [insertDescend, hcmp] at h
      exact Except.noConfusion h
    | ok b =>
      cases b with
      | true =>
        simp only [insertDescend, hcmp] at h
        injection h with h
        subst h
        by_cases hk : x.updated_at = key
        · have hnil : (y :: ys).filter (fun s => decide (s.updated_at = key)) = [] := by
            rw [List.filter_eq_nil_iff]
            intro z hz
            simp only [decide_eq_true_eq]
            rcases List.mem_cons.mp hz with hz | hz
            · subst hz
              intro he
              exact ne_key_of_updatedAtLt hcmp (he.trans hk.symm)
            · intro he
              have hcongr : updatedAtLt? y z = updatedAtLt? y x :=
                updatedAtLt_congr (he.trans hk.symm)
              rw [hy z hz, hcmp] at hcongr
              injection hcongr with e
              exact Bool.noConfusion e
          have hhead : (x :: y :: ys).filter (fun s => decide (s.updated_at = key))
              = x :: (y :: ys).filter (fun s => decide (s.updated_at = key)) := by
            simp [List.filter_cons, hk]
          rw [hhead, hnil, if_pos hk]
          rfl
        · rw [if_neg hk]
          simp [List.filter_cons, hk]
      | false =>
        cases hrec : insertDescend x ys with
        | error e =>
          simp only [insertDescend, hcmp, hrec] at h
          exact Except.noConfusion h
        | ok rest =>
          simp only [insertDescend, hcmp, hrec] at h
          injection h with h
          subst h
          have hih := ih rest hys hrec
          by_cases hyk : y.updated_at = key
          · simp [List.filter_cons, hyk, hih]
          · simp [List.filter_cons, hyk, hih]

theorem strKeyed_iff {s : ConversationSummary} :
    strKeyed s = true ↔ ∃ u, s.updated_at = Json.str u := by
  unfold strKeyed
  cases h : s.updated_at <;> simp

theorem updatedAtLt_ok_of_str {a b : ConversationSummary}
    (ha : strKeyed a = true) (hb : strKeyed b = true) :
    ∃ v, updatedAtLt? a b = Except.ok v := by
  rw [strKeyed_iff] at ha hb
  obtain ⟨u, hu⟩ := ha
  obtain ⟨w, hw⟩ := hb
  refine ⟨decide (u.data < w.data), ?_⟩
  simp only [updatedAtLt?, hu, hw]

theorem insertDescend_ok (x : ConversationSummary) (hx : strKeyed x = true) :
    ∀ l : List ConversationSummary, (∀ s ∈ l, strKeyed s = true) →
      ∃ out, insertDescend x l = Except.ok out := by
  intro l
  induction l with
  | nil => exact fun _ => ⟨[x], rfl⟩
  | cons y ys ih =>
    intro hl
    obtain ⟨v, hv⟩ := updatedAtLt_ok_of_str (hl y (List.mem_cons_self y ys)) hx
    cases v with
    | true =>
      refine ⟨x :: y :: ys, ?_⟩
      simp only [insertDescend, hv]
    | false =>
      obtain ⟨rest, hrest⟩ := ih (fun s hs => hl s (List.mem_cons_of_mem y hs))
      refine ⟨y :: rest, ?_⟩
      simp only [insertDescend, hv, hrest]

theorem sortDescendAux_pairwise :
    ∀ l acc out : List ConversationSummary,
      acc.Pairwise (fun a b => updatedAtLt? a b = Except.ok false) →
      sortDescendAux acc l = Except.ok out →
      out.Pairwise (fun a b => updatedAtLt? a b = Except.ok false) := by
  intro l
  induction l with
  | nil =>
    intro acc out hp h
    injection h with h
    subst h
    exact hp
  | cons x xs ih =>
    intro acc out hp h
    cases hins : insertDescend x acc with
    | error e =>
      simp only [sortDescendAux, hins] at h
      exact Except.noConfusion h
    | ok acc2 =>
      simp only [sortDescendAux, hins] at h
      exact ih acc2 out (insertDescend_pairwise x acc acc2 hp hins) h

theorem sortDescendAux_perm :
    ∀ l acc out : List ConversationSummary,
      sortDescendAux acc l = Except.ok out → List.Perm out (acc ++ l) := by
  intro l
  induction l with
  | nil =>
    intro acc out h
    injection h with h
    subst h
    simp
  | cons x xs ih =>
    intro acc out h
    cases hins : insertDescend x acc with
    | error e =>
      simp only [sortDescendAux, hins] at h
      exact Except.noConfusion h
    | ok acc2 =>
      simp only [sortDescendAux, hins] at h
      refine (ih acc2 out h).trans ?_
      refine ((insertDescend_perm x acc acc2 hins).append_right xs).trans ?_
      exact List.perm_middle.symm

theorem sortDescendAux_filter (key : Json) :
    ∀ l acc out : List ConversationSummary,
      acc.Pairwise (fun a b => updatedAtLt? a b = Except.ok false) →
      sortDescendAux acc l = Except.ok out →
      out.filter (fun s => decide (s.updated_at = key))
        = acc.filter (fun s => decide (s.updated_at = key))
          ++ l.filter (fun s => decide (s.updated_at = key)) := by
  intro l
  induction l with
  | nil =>
    intro acc out hp h
    injection h with h
    subst h
    simp
  | cons x xs ih =>
    intro acc out hp h
    cases hins : insertDescend x acc with
    | error e =>
      simp only [sortDescendAux, hins] at h
      exact Except.noConfusion h
    | ok acc2 =>
      simp only [sortDescendAux, hins] at h
      have hacc2 := insertDescend_filter x key acc acc2 hp hins
      have hrec := ih acc2 out (insertDescend_pairwise x acc acc2 hp hins) h
      rw [hrec, hacc2]
      by_cases hk : x.updated_at = key
      · rw [if_pos hk]
        simp [List.filter_cons, hk]
      · rw [if_neg hk]
        simp [List.filter_cons, hk]

theorem sortDescendAux_ok :
    ∀ l acc : List ConversationSummary,
      (∀ s ∈ l, strKeyed s = true) → (∀ s ∈ acc, strKeyed s = true) →
      ∃ out, sortDescendAux acc l = Except.ok out := by
  intro l
  induction l with
  | nil => exact fun acc _ _ => ⟨acc, rfl⟩
  | cons x xs ih =>
    intro acc hl hacc
    obtain ⟨acc2, hacc2⟩ := insertDescend_ok x (hl x (List.mem_cons_self x xs)) acc hacc
    have hacc2mem : ∀ s ∈ acc2, strKeyed s = true := by
      intro s hs
      have hmem := (insertDescend_perm x acc acc2 hacc2).mem_iff.mp hs
      rcases List.mem_cons.mp hmem with hh | hh
      · rw [hh]
        exact hl x (List.mem_cons_self x xs)
      · exact hacc s hh
    obtain ⟨out, hout⟩ := ih acc2 (fun s hs => hl s (List.mem_cons_of_mem x hs)) hacc2mem
    refine ⟨out, ?_⟩
    simp only [sortDescendAux, hacc2, hout]

theorem sortDescend_sorted {l out : List ConversationSummary}
    (h : sortDescend l = Except.ok out) :
    out.Pairwise (fun a b => updatedAtLt? a b = Except.ok false) :=
  sortDescendAux_pairwise l [] out List.Pairwise.nil h

theorem sortDescend_permutes {l out : List ConversationSummary}
    (h : sortDescend l = Except.ok out) : List.Perm out l := by
  have hp := sortDescendAux_perm l [] out h
  simpa using hp

theorem sortDescend_stable (key : Json) {l out : List ConversationSummary}
    (h : sortDescend l = Except.ok out) :
    out.filter (fun s => decide (s.updated_at = key))
      = l.filter (fun s => decide (s.updated_at = key)) := by
  have hf := sortDescendAux_filter key l [] out List.Pairwise.nil h
  simpa using hf

theorem sortDescend_ok {l : List ConversationSummary}
    (hl : ∀ s ∈ l, strKeyed s = true) :
    ∃ out, sortDescend l = Except.ok out :=
  sortDescendAux_ok l [] hl (fun s hs => absurd hs (List.not_mem_nil s))

/-- Digit characters compare like their digit values. -/
theorem digitChar_lt_digitChar :
    ∀ x, x ≤ 9 → ∀ y, y ≤ 9 → x < y → Nat.digitChar x < Nat.digitChar y := by decide

/-- Lexicographic comparison is preserved under a shared prefix. -/
theorem lex_append_of_lex {r1 r2 : List Char} (l : List Char)
    (h : List.Lex (fun a b => a < b) r1 r2) :
    List.Lex (fun a b => a < b) (l ++ r1) (l ++ r2) := by
  induction l with
  | nil => exact h
  | cons c cs ih => exact List.Lex.cons ih

/-- Fixed width zero padded renderings of in-range numbers compare
lexicographically like the numbers, whatever follows them. -/
theorem padDigits_lt (w : Nat) : ∀ (a b : Nat) (r1 r2 : List Char), a < b → b < 10 ^ w →
    List.Lex (fun a b => a < b) (padDigits w a ++ r1) (padDigits w b ++ r2) := by
  induction w with
  | zero =>
    intro a b r1 r2 hab hb
    exact absurd hab (by omega)
  | succ w ih =>
    intro a b r1 r2 hab hb
    have hple : a / 10 ^ w ≤ b / 10 ^ w := Nat.div_le_div_right (le_of_lt hab)
    have hb10 : b / 10 ^ w < 10 := by
      apply Nat.div_lt_of_lt_mul
      calc b < 10 ^ (w + 1) := hb
      _ = 10 ^ w * 10 := by ring
    simp only [padDigits, List.cons_append]
    rcases Nat.lt_or_ge (a / 10 ^ w) (b / 10 ^ w) with hq | hq
    · exact List.Lex.rel (digitChar_lt_digitChar _ (by omega) _ (by omega) hq)
    · have hqe : a / 10 ^ w = b / 10 ^ w := le_antisymm hple hq
      have ha := Nat.div_add_mod a (10 ^ w)
      have hbb := Nat.div_add_mod b (10 ^ w)
      rw [hqe] at ha
      have hmod : a % 10 ^ w < b % 10 ^ w := by omega
      have hbmod : b % 10 ^ w < 10 ^ w := Nat.mod_lt _ (Nat.pow_pos (by omega))
      rw [hqe]
      exact List.Lex.cons (ih _ _ _ _ hmod hbmod)

/-- Character level shape of the isoformat rendering of an aware UTC
datetime. -/
theorem isoformat_data (d : Datetime) (hoff : d.utcOffsetMinutes = some 0) :
    (d.isoformat).data =
      padDigits 4 d.year ++ '-' :: (padDigits 2 d.month ++ '-' :: (padDigits 2 d.day ++
        'T' :: (padDigits 2 d.hour ++ ':' :: (padDigits 2 d.minute ++
        ':' :: (padDigits 2 d.second ++
        ((if d.microsecond = 0 then [] else '.' :: padDigits 6 d.microsecond) ++
          ['+', '0', '0', ':', '0', '0'])))))) := by
  by_cases hmc : d.microsecond = 0
  · simp [Datetime.isoformat, hoff, hmc, padZeros, offsetSuffix, String.data_append,
      padDigits, Nat.digitChar]
  · simp [Datetime.isoformat, hoff, hmc, padZeros, offsetSuffix, String.data_append,
      padDigits, Nat.digitChar]

/-- The isoformat rendering of aware UTC datetimes is strictly monotone: an
earlier instant yields a lexicographically smaller string. Together with the
string sort of the listing this orders summaries by instant. -/
theorem isoformat_strict_mono (d1 d2 : Datetime)
    (h1 : d1.pyValid = true) (h2 : d2.pyValid = true)
    (ho1 : d1.utcOffsetMinutes = some 0) (ho2 : d2.utcOffsetMinutes = some 0)
    (hlt : Datetime.lexLt d1 d2 = true) :
    List.Lex (fun a b => a < b) (d1.isoformat).data (d2.isoformat).data := by
  rw [isoformat_data d1 ho1, isoformat_data d2 ho2]
  have hv1 := of_decide_eq_true h1
  have hv2 := of_decide_eq_true h2
  obtain ⟨-, hy1, -, hmo1, -, hd1, hh1, hmi1, hs1, hus1⟩ := hv1
  obtain ⟨-, hy2, -, hmo2, -, hd2, hh2, hmi2, hs2, hus2⟩ := hv2
  have hlex : List.Lex (fun a b => a < b) d1.fieldList d2.fieldList := by
    have h := hlt
    simp only [Datetime.lexLt, decide_eq_true_eq] at h
    exact h
  obtain ⟨y1, mo1, da1, hr1, mi1, se1, us1, of1⟩ := d1
  obtain ⟨y2, mo2, da2, hr2, mi2, se2, us2, of2⟩ := d2
  simp only [Datetime.fieldList] at hlex
  dsimp only
  simp only at hy1 hmo1 hd1 hh1 hmi1 hs1 hus1 hy2 hmo2 hd2 hh2 hmi2 hs2 hus2
  cases hlex with
  | rel h => exact padDigits_lt 4 _ _ _ _ h (by omega)
  | cons hlex =>
    apply lex_append_of_lex
    apply List.Lex.cons
    cases hlex with
    | rel h => exact padDigits_lt 2 _ _ _ _ h (by omega)
    | cons hlex =>
      apply lex_append_of_lex
      apply List.Lex.cons
      cases hlex with
      | rel h => exact padDigits_lt 2 _ _ _ _ h (by omega)
      | cons hlex =>
        apply lex_append_of_lex
        apply List.Lex.cons
        cases hlex with
        | rel h => exact padDigits_lt 2 _ _ _ _ h (by omega)
        | cons hlex =>
          apply lex_append_of_lex
          apply List.Lex.cons
          cases hlex with
          | rel h => exact padDigits_lt 2 _ _ _ _ h (by omega)
          | cons hlex =>
            apply lex_append_of_lex
            apply List.Lex.cons
            cases hlex with
            | rel h => exact padDigits_lt 2 _ _ _ _ h (by omega)
            | cons hlex =>
              apply lex_append_of_lex
              cases hlex with
              | rel h =>
                by_cases hz1 : us1 = 0
                · have hz2 : ¬ (us2 = 0) := by omega
                  rw [if_pos hz1, if_neg hz2]
                  exact List.Lex.rel (by decide)
                · have hz2 : ¬ (us2 = 0) := by omega
                  rw [if_neg hz1, if_neg hz2]
                  simp only [List.cons_append]
                  exact List.Lex.cons (padDigits_lt 6 _ _ _ _ h (by omega))
              | cons hlex => cases hlex

/-- C8: whenever the listing of a store succeeds, it returns the summaries of
exactly the parseable json documents (a permutation of them), sorted by the
updated_at entries descending, with ties broken stably by the enumeration's
arrival order: for every key value, the summaries carrying it appear in the
output exactly in their enumeration order, stated as equality of the
key-filtered sublists. Every store whose parseable summaries all carry
string updated_at entries, as every document this repository writes does,
lists successfully. The isoformat rendering of aware UTC instants is
strictly monotone, so the string order used by the sort is the instant order
on the timestamps this repository writes. Concretely: saving three
conversations with update instants t1 < t2 < t3 and listing returns their
summaries in the order t3, t2, t1, also in the presence of an extra
unparseable document, which is skipped without failing the listing; two
conversations saved with the same update instant keep their save order in
the listing; and a store carrying a parseable document with a non-string
updated_at beside a string-keyed one fails the listing with the TypeError
the Python comparison raises, since the sort runs outside the per-file
exception handler. -/
theorem C8_list_conversations :
    (∀ (fs : FileSystem) (l : List ConversationSummary),
      ConversationManager.list_conversations fs = Except.ok l →
      l.Pairwise (fun a b => updatedAtLt? a b = Except.ok false) ∧
      List.Perm l (rawSummaries fs) ∧
      ∀ key : Json, l.filter (fun s => decide (s.updated_at = key))
        = (rawSummaries fs).filter (fun s => decide (s.updated_at = key))) ∧
    (∀ fs : FileSystem, strUpdatedKeys fs = true →
      ∃ l, ConversationManager.list_conversations fs = Except.ok l) ∧
    (∀ d1 d2 : Datetime, d1.pyValid = true → d2.pyValid = true →
      d1.utcOffsetMinutes = some 0 → d2.utcOffsetMinutes = some 0 →
      Datetime.lexLt d1 d2 = true →
      List.Lex (fun a b => a < b) (d1.isoformat).data (d2.isoformat).data) ∧
    Datetime.lexLt dtU1 dtU2 = true ∧ Datetime.lexLt dtU2 dtU3 = true ∧
    (do
      let (fs1, _) ← mgr0.save_conversation (some (convL "conv-u1" dtU1)) []
      let (fs2, _) ← mgr0.save_conversation (some (convL "conv-u2" dtU2)) fs1
      let (fs3, _) ← mgr0.save_conversation (some (convL "conv-u3" dtU3)) fs2
      pure fs3 : Except SaveErr FileSystem) = Except.ok fsC8 ∧
    ConversationManager.list_conversations fsC8
      = Except.ok [sumL "conv-u3" dtU3, sumL "conv-u2" dtU2, sumL "conv-u1" dtU1] ∧
    summarize (Json.obj [("id", Json.str "bad")]) = Option.none ∧
    ConversationManager.list_conversations fsC8bad
      = Except.ok [sumL "conv-u3" dtU3, sumL "conv-u2" dtU2, sumL "conv-u1" dtU1] ∧
    (do
      let (fsa, _) ← mgr0.save_conversation (some (convL "conv-ta" dtU1)) []
      let (fsb, _) ← mgr0.save_conversation (some (convL "conv-tb" dtU3)) fsa
      let (fsc, _) ← mgr0.save_conversation (some (convL "conv-tc" dtU3)) fsb
      pure fsc : Except SaveErr FileSystem) = Except.ok fsC8tie ∧
    ConversationManager.list_conversations fsC8tie
      = Except.ok [sumL "conv-tb" dtU3, sumL "conv-tc" dtU3, sumL "conv-ta" dtU1] ∧
    ConversationManager.list_conversations fsC8mixed
      = Except.error PyErr.typeError := by
  refine ⟨?_, ?_, isoformat_strict_mono, by decide, by decide, rfl, rfl,
    rfl, rfl, rfl, rfl, rfl⟩
  · intro fs l h
    exact ⟨sortDescend_sorted h, sortDescend_permutes h,
      fun key => sortDescend_stable key h⟩
  · intro fs hstr
    exact sortDescend_ok (List.all_eq_true.mp hstr)

/-- C8 witness: the sorted-permutation-stability clause and the success
clause applied to the concrete three-save store, and the monotonicity clause
applied to its first two instants. -/
theorem C8_witness :
    strUpdatedKeys fsC8 = true ∧
    (∃ l, ConversationManager.list_conversations fsC8 = Except.ok l) ∧
    ConversationManager.list_conversations fsC8
      = Except.ok [sumL "conv-u3" dtU3, sumL "conv-u2" dtU2, sumL "conv-u1" dtU1] ∧
    ([sumL "conv-u3" dtU3, sumL "conv-u2" dtU2, sumL "conv-u1" dtU1].Pairwise
      (fun a b => updatedAtLt? a b = Except.ok false) ∧
     List.Perm [sumL "conv-u3" dtU3, sumL "conv-u2" dtU2, sumL "conv-u1" dtU1]
       (rawSummaries fsC8) ∧
     ∀ key : Json,
       [sumL "conv-u3" dtU3, sumL "conv-u2" dtU2, sumL "conv-u1" dtU1].filter
           (fun s => decide (s.updated_at = key))
         = (rawSummaries fsC8).filter (fun s => decide (s.updated_at = key))) ∧
    dtU1.pyValid = true ∧ dtU2.pyValid = true ∧ Datetime.lexLt dtU1 dtU2 = true ∧
    List.Lex (fun a b => a < b) (dtU1.isoformat).data (dtU2.isoformat).data :=
  ⟨by decide,
   C8_list_conversations.2.1 fsC8 (by decide),
   rfl,
   C8_list_conversations.1 fsC8
     [sumL "conv-u3" dtU3, sumL "conv-u2" dtU2, sumL "conv-u1" dtU1] rfl,
   by decide, by decide, by decide,
   C8_list_conversations.2.2.1 dtU1 dtU2 (by decide) (by decide) rfl rfl (by decide)⟩

theorem isSome_of_respTruthy {o : Option PyResp} (h : respTruthy o = true) :
    o.isSome = true := by
  cases o with
  | none => simp [respTruthy] at h
  | some r => rfl

theorem all_complete_of_no_incomplete (c : Conversation)
    (hmost : atMostLastIncomplete c = true)
    (hnone : c.get_last_incomplete_turn = Option.none) :
    c.turns.all (fun t => t.assistant_response.isSome) = true := by
  unfold Conversation.get_last_incomplete_turn at hnone
  cases hlast : c.turns.getLast? with
  | none =>
    have he : c.turns = [] := List.getLast?_eq_none_iff.mp hlast
    rw [he]
    rfl
  | some last =>
    simp only [hlast] at hnone
    by_cases htr : respTruthy last.assistant_response = true
    · obtain ⟨l2, hl⟩ := List.getLast?_eq_some_iff.mp hlast
      unfold atMostLastIncomplete at hmost
      rw [hl, List.dropLast_concat] at hmost
      rw [hl, List.all_append, hmost]
      simp [isSome_of_respTruthy htr]
    · rw [if_neg htr] at hnone
      exact absurd hnone (by simp)

/-- C3 counterexample: two consecutive user messages with no completion in
between reach a manager state, through the ordinary operations, whose first
turn is incomplete while a later turn exists, refuting the claimed invariant
over all reachable states. -/
theorem C3_counterexample :
    Reachable mgrTwoAppends ∧
    mgrTwoAppends.current_conversation.map atMostLastIncomplete = some false := by
  constructor
  · exact Reachable.user mgrOneAppend "again" "conv-y" dtB "turn-x2" dtB dtB
      (Reachable.user mgr0 "hello" "conv-x" dtA "turn-x1" dtA dtA (Reachable.init cfg0))
  · rfl

/-- C3 amended: in every state reachable when user messages are only
appended while no incomplete turn exists, every turn except possibly the last
has an assistant response; and add_assistant_response only ever modifies the
last turn, leaving all earlier turns unchanged. -/
theorem C3_disciplined_invariant :
    (∀ m, ReachableDisciplined m →
      ∀ c, m.current_conversation = some c → atMostLastIncomplete c = true) ∧
    (∀ (m m2 : ConversationManager) (r : ChatResponse) (t : Datetime),
      m.add_assistant_response r t = Except.ok m2 →
      ∀ c c2, m.current_conversation = some c → m2.current_conversation = some c2 →
        c2.turns.dropLast = c.turns.dropLast) := by
  constructor
  · intro m hm
    induction hm with
    | init cfg =>
      intro c hc
      exact Option.noConfusion hc
    | start m title sysp now cid hr ih =>
      intro c hc
      simp only [ConversationManager.start_new_conversation] at hc
      injection hc with e
      subst e
      rfl
    | user m msg cid t0 tid t1 t2 hr hguard ih =>
      intro c hc
      cases hcur : m.current_conversation with
      | none =>
        simp only [ConversationManager.add_user_message, Conversation.add_turn,
          ConversationManager.start_new_conversation, hcur] at hc
        injection hc with e
        subst e
        rfl
      | some c0 =>
        simp only [ConversationManager.add_user_message, Conversation.add_turn, hcur] at hc
        injection hc with e
        subst e
        have hall := all_complete_of_no_incomplete c0 (ih c0 hcur) (hguard c0 hcur)
        unfold atMostLastIncomplete
        rw [List.dropLast_concat]
        exact hall
    | response m m2 r t hr hok ih =>
      intro c hc
      unfold ConversationManager.add_assistant_response at hok
      cases hcur : m.current_conversation with
      | none =>
        simp only [hcur] at hok
        exact Except.noConfusion hok
      | some c1 =>
        simp only [hcur] at hok
        cases hlast : c1.turns.getLast? with
        | none =>
          simp only [hlast] at hok
          exact Except.noConfusion hok
        | some last =>
          simp only [hlast] at hok
          by_cases htr : respTruthy last.assistant_response = true
          · rw [if_pos htr] at hok
            exact Except.noConfusion hok
          · rw [if_neg htr] at hok
            injection hok with e
            subst e
            injection hc with e2
            subst e2
            unfold atMostLastIncomplete
            rw [List.dropLast_concat]
            exact ih c1 hcur
  · intro m m2 r t hok c c2 hc hc2
    unfold ConversationManager.add_assistant_response at hok
    simp only [hc] at hok
    cases hlast : c.turns.getLast? with
    | none =>
      simp only [hlast] at hok
      exact Except.noConfusion hok
    | some last =>
      simp only [hlast] at hok
      by_cases htr : respTruthy last.assistant_response = true
      · rw [if_pos htr] at hok
        exact Except.noConfusion hok
      · rw [if_neg htr] at hok
        injection hok with e
        subst e
        injection hc2 with e2
        subst e2
        exact List.dropLast_concat

/-- C3 witness: the invariant at a concrete disciplined state and the
last-turn-only clause at a concrete completion. -/
theorem C3_witness :
    atMostLastIncomplete convOneAppend = true ∧
    convC4done.turns.dropLast = convC4open.turns.dropLast :=
  ⟨C3_disciplined_invariant.1 mgrOneAppend
      (ReachableDisciplined.user mgr0 "hello" "conv-x" dtA "turn-x1" dtA dtA
        (ReachableDisciplined.init cfg0) (fun _ hc => Option.noConfusion hc))
      convOneAppend rfl,
    C3_disciplined_invariant.2 mgrC4open mgrC4done (mkResponse "done") dtC rfl
      convC4open convC4done rfl rfl⟩

end LCC
